import Mathlib

/-!
Verification of the deepcopy generator
(`src/vendor/k8s.io/gengo/examples/deepcopy-gen/generators/deepcopy.go`).

The development shallowly embeds the generator: the gengo type descriptor
(`types.Type`) becomes the inductive `GoType`; the comment-tag extractors and
the eligibility pipeline (`extractTag`, `copyableType`, the package scan of
`Packages`, `Filter`, `needsGeneration`) become `Except`-valued functions
(`glog.Fatalf` is modelled as the error case); and the recursive kind-dispatch
synthesizer (`generateFor` / `doMap` / `doSlice` / `doStruct` / `doPointer` ...)
becomes a function producing an abstract syntax (`Snip`) whose constructors
correspond one-to-one to the Go statement templates the generator writes with
`sw.Do(...)`.  A small evaluator gives the emitted statement templates their Go
semantics over a value domain, so that the correctness claims about the
*generated* code (nil propagation, adapter behaviour) can be settled.
-/

namespace DeepcopyGen

/-! ## Go string primitives

Kernel-computable models of the Go `strings` functions the generator uses.
All separators used by the source (`","`, `"="`, `"."`, `"+"`, `" "`) are
single characters, so splitting is modelled on character lists.
-/

/-- Auxiliary splitter: Go `strings.Split(s, sep)` for a one-character
separator, on character lists. -/
def splitOnCharAux (c : Char) : List Char → List Char → List (List Char)
  | [], acc => [acc.reverse]
  | x :: xs, acc =>
    if x = c then acc.reverse :: splitOnCharAux c xs []
    else splitOnCharAux c xs (x :: acc)

/-- Go `strings.Split(s, sep)` for a one-character separator. -/
def goSplit (c : Char) (s : String) : List String :=
  (splitOnCharAux c s.data []).map String.mk

/-- Auxiliary for `goSplitFirst`. -/
def splitFirstAux (c : Char) : List Char → List Char → List Char × Option (List Char)
  | [], acc => (acc.reverse, none)
  | x :: xs, acc =>
    if x = c then (acc.reverse, some xs) else splitFirstAux c xs (x :: acc)

/-- Go `strings.SplitN(s, sep, 2)` for a one-character separator: the part
before the first separator, and (when the separator occurs) the rest. -/
def goSplitFirst (c : Char) (s : String) : String × Option String :=
  let (k, v) := splitFirstAux c s.data []
  (String.mk k, v.map String.mk)

/-- Go `strings.Trim(s, " ")`. -/
def goTrimSpaces (s : String) : String :=
  String.mk (((s.data.dropWhile (· = ' ')).reverse.dropWhile (· = ' ')).reverse)

/-! ## The type descriptor model (gengo `types` package) -/

/-- The structural category of a type; gengo `types.Kind` restricted to the
kinds the generator dispatches on (every other gengo kind falls into the
`default` branch of `generateFor`, represented here by `Unknown`). -/
inductive Kind where
  | Builtin
  | Map
  | Slice
  | Struct
  | Interface
  | Pointer
  | Alias
  | Unknown
deriving DecidableEq

/-- Gengo `types.Name`: a package path plus a local name. -/
structure Name where
  pkg : String
  name : String
deriving DecidableEq

/-- Gengo `types.Name.String()`: `pkg.name`, or just `name` when the package
is empty. -/
def Name.qualified (n : Name) : String :=
  if n.pkg = "" then n.name else String.mk (n.pkg.data ++ '.' :: n.name.data)

/-- The part of a gengo method type (`types.Type` of kind `Func`) that
`hasDeepCopyMethod` and `GenerateType` consult: the signature's receiver kind,
parameter list and result names. -/
structure Method where
  receiverKind : Kind
  parameters : List Name
  results : List Name
deriving DecidableEq

/-- Gengo `types.Type`, restricted to the attributes the generator reads:
kind, name, members (with field names), element type, key type, underlying
type, method set, comment lines and second-closest comment lines. -/
inductive GoType where
  | mk :
      Kind →                       -- Kind
      Name →                       -- Name
      List (String × GoType) →     -- Members (field name, field type)
      Option GoType →              -- Elem (pointer / slice / map / alias)
      Option GoType →              -- Key (map)
      Option GoType →              -- Underlying (alias)
      List (String × Method) →     -- Methods
      List String →                -- CommentLines
      List String →                -- SecondClosestCommentLines
      GoType

def GoType.kind : GoType → Kind
  | .mk k _ _ _ _ _ _ _ _ => k

def GoType.name : GoType → Name
  | .mk _ n _ _ _ _ _ _ _ => n

def GoType.members : GoType → List (String × GoType)
  | .mk _ _ ms _ _ _ _ _ _ => ms

def GoType.elem : GoType → Option GoType
  | .mk _ _ _ e _ _ _ _ _ => e

def GoType.key : GoType → Option GoType
  | .mk _ _ _ _ k _ _ _ _ => k

def GoType.underlying : GoType → Option GoType
  | .mk _ _ _ _ _ u _ _ _ => u

def GoType.methods : GoType → List (String × Method)
  | .mk _ _ _ _ _ _ m _ _ => m

def GoType.commentLines : GoType → List String
  | .mk _ _ _ _ _ _ _ c _ => c

def GoType.secondClosestCommentLines : GoType → List String
  | .mk _ _ _ _ _ _ _ _ s => s

/-- Gengo `copied := *t.Underlying; copied.Name = t.Name` from `doStruct`:
the given type with its name replaced. -/
def withName (t : GoType) (n : Name) : GoType :=
  match t with
  | .mk k _ ms e ky u m c s => .mk k n ms e ky u m c s

theorem sizeOf_elem_lt {t e : GoType} (h : t.elem = some e) : sizeOf e < sizeOf t := by
  cases t with
  | mk k n ms el ky u m c s =>
    simp [GoType.elem] at h
    subst h
    simp
    omega

theorem sizeOf_key_lt {t k : GoType} (h : t.key = some k) : sizeOf k < sizeOf t := by
  cases t with
  | mk kd n ms el ky u m c s =>
    simp [GoType.key] at h
    subst h
    simp
    omega

theorem sizeOf_underlying_lt {t u : GoType} (h : t.underlying = some u) :
    sizeOf u < sizeOf t := by
  cases t with
  | mk kd n ms el ky un m c s =>
    simp [GoType.underlying] at h
    subst h
    simp
    omega

theorem sizeOf_members_lt (t : GoType) : sizeOf t.members < sizeOf t := by
  cases t with
  | mk kd n ms el ky un m c s =>
    simp [GoType.members]
    omega

theorem sizeOf_name_pos (n : Name) : 0 < sizeOf n := by
  cases n
  simp

theorem sizeOf_underlying_name_lt {t u : GoType} (h : t.underlying = some u) :
    sizeOf u + sizeOf t.name < sizeOf t := by
  cases t with
  | mk kd n ms el ky un m c s =>
    simp [GoType.underlying] at h
    subst h
    simp [GoType.name]
    omega

theorem sizeOf_withName (t : GoType) (n : Name) :
    sizeOf (withName t n) + sizeOf t.name = sizeOf t + sizeOf n := by
  cases t with
  | mk kd nm ms el ky un m c s =>
    simp [withName, GoType.name]
    omega

theorem sizeOf_withName_underlying_lt {t u : GoType} (h : t.underlying = some u) :
    sizeOf (withName u t.name) < sizeOf t := by
  have h1 := sizeOf_withName u t.name
  have h2 := sizeOf_underlying_name_lt h
  have h3 := sizeOf_name_pos u.name
  omega

/-! ## Spec-modelled helpers from the excluded gengo `types` / `namer` packages -/

/-- Modelled from the spec: the comment/annotation scanner
(gengo `types.ExtractCommentTags`, whose source is outside `src/`).  Per the
spec's §1, it turns raw documentation strings into structured tag values:
a comment line of the form `+tag=value` (after trimming spaces) contributes
`value` to the tag `tag`; a line `+tag` without `=` contributes the empty
value.  This function returns the values recorded for one tag, in line order
(Go returns a map from tag name to value list; only one tag's list is ever
consulted at a time). -/
def extractCommentTagValues (tag : String) (lines : List String) : List String :=
  lines.filterMap fun line =>
    let line := goTrimSpaces line
    match line.data with
    | '+' :: rest =>
        let (k, v) := splitFirstAux '=' rest []
        if String.mk k = tag then some (String.mk (v.getD [])) else none
    | _ => none

mutual

/-- Modelled from the spec: gengo `types.Type.IsAssignable` (source outside
`src/`).  Per §4.3, a type is "structurally trivially assignable" when it has
no reference-semantic members transitively: builtins are assignable, a struct
is assignable when every member is, and nothing else is. -/
def IsAssignable (t : GoType) : Bool :=
  match t.kind with
  | .Builtin => true
  | .Struct => allMembersAssignable t.members
  | _ => false
termination_by sizeOf t
decreasing_by
  exact sizeOf_members_lt t

/-- Auxiliary for `IsAssignable`: every member type is assignable. -/
def allMembersAssignable : List (String × GoType) → Bool
  | [] => true
  | (_, mt) :: rest => IsAssignable mt && allMembersAssignable rest
termination_by ms => sizeOf ms
decreasing_by
  all_goals (simp; try omega)

end

/-- Modelled from the spec: gengo `types.Type.IsAnonymousStruct` (source
outside `src/`).  Per §4.3 the map-value special case fires for an
"anonymous/empty-shape value": a struct whose name is the anonymous
`struct\x7b\x7d`. -/
def IsAnonymousStruct (t : GoType) : Bool :=
  t.kind = .Struct && t.name.name = "struct\x7b\x7d"

/-- Modelled from the spec: gengo `namer.IsPrivateGoName` (source outside
`src/`).  Per §4.2 a type name is private when it follows the
lower-case-initial convention (an empty name counts as private). -/
def isPrivateGoName (s : String) : Bool :=
  match s.data with
  | [] => true
  | c :: _ => c.toLower = c

/-- Modelled from the spec: gengo `types.ParseFullyQualifiedName` (source
outside `src/`).  Splits a fully-qualified interface name on `.`; everything
before the last dot is the package, the last segment is the local name. -/
def ParseFullyQualifiedName (fqn : String) : Name :=
  let cs := goSplit '.' fqn
  { pkg := if cs.length > 1 then String.intercalate "." cs.dropLast else ""
    name := cs.getLastD "" }

/-! ## The directive resolver (`extractTag` and friends, deepcopy.go:41-96,
397-427)

`glog.Fatalf` aborts the whole run; it is modelled as `Except.error`.
-/

/-- Comment tag carrying deepcopy-generation parameters (deepcopy.go:43). -/
def tagName : String := "k8s:deepcopy-gen"

/-- Interface-attachment tag (deepcopy.go:44). -/
def interfacesTagName : String := "k8s:deepcopy-gen:interfaces"

/-- Non-pointer-receiver tag (deepcopy.go:45). -/
def interfacesNonPointerTagName : String := "k8s:deepcopy-gen:nonpointer-interfaces"

/-- Known value for the comment tag (deepcopy.go:49). -/
def tagValuePackage : String := "package"

/-- Parameters of a `tagName` tag (deepcopy.go:52-55). -/
structure tagValue where
  value : String
  register : Bool
deriving DecidableEq

/-- Parses one tag value string: the first comma-separated segment is the
primary value, the remaining segments are `key=value` sub-options
(deepcopy.go:71-94).  An unsupported sub-option key is fatal. -/
def parseTagValue (s : String) : Except String tagValue := do
  let parts := goSplit ',' s
  let value := parts.headD ""
  (parts.drop 1).foldlM
    (fun tv part => do
      let (k, v) := goSplitFirst '=' part
      if k = "register" then
        if v ≠ some "false" then pure { tv with register := true } else pure tv
      else throw "unsupported deepcopy-gen param")
    { value := value, register := false }

/-- Mirror of `extractTag` (deepcopy.go:57-96): no tag yields no directive,
more than one occurrence is fatal, a single occurrence is parsed. -/
def extractTag (comments : List String) : Except String (Option tagValue) :=
  match extractCommentTagValues tagName comments with
  | [] => pure none
  | [v] => do pure (some (← parseTagValue v))
  | _ => throw "found multiple deepcopy-gen tags"

/-- True when the extracted directive is present with the given primary
value. -/
def tagValueIs (o : Option tagValue) (v : String) : Bool :=
  match o with
  | some tv => tv.value = v
  | none => false

/-- Mirror of `extractInterfacesTag` (deepcopy.go:397-413): collects all
occurrences, splits each on commas, and drops empty entries, preserving
order and duplicates. -/
def extractInterfacesTag (comments : List String) : List String :=
  (extractCommentTagValues interfacesTagName comments).flatMap fun v =>
    if v = "" then [] else (goSplit ',' v).filter (fun intf => intf ≠ "")

/-- Mirror of `extractNonPointerInterfaces` (deepcopy.go:415-427): the first
occurrence decides; any occurrence disagreeing with it is a fatal
contradiction. -/
def extractNonPointerInterfaces (comments : List String) : Except String Bool :=
  match extractCommentTagValues interfacesNonPointerTagName comments with
  | [] => pure false
  | v0 :: rest =>
      let result : Bool := v0 = "true"
      if (v0 :: rest).all (fun v => (decide (v = "true")) = result) then pure result
      else throw "contradicting nonpointer-interfaces values"

/-! ## Eligibility (`hasDeepCopyMethod`, `copyableType`, `Filter`,
`needsGeneration`, the package scan of `Packages`) -/

/-- Mirror of `hasDeepCopyMethod` (deepcopy.go:296-310): a method named
`DeepCopy` with no parameters and exactly one result of the receiver's own
type. -/
def hasDeepCopyMethod (t : GoType) : Bool :=
  match t.methods.lookup "DeepCopy" with
  | none => false
  | some mt =>
      if mt.parameters.length ≠ 0 then false
      else
        match mt.results with
        | [r] => r = t.name
        | _ => false

/-- True when the character list `s` starts with the character list `p`. -/
def leadsWith : List Char → List Char → Bool
  | [], _ => true
  | _ :: _, [] => false
  | a :: as, b :: bs => a = b && leadsWith as bs

/-- Mirror of `isRootedUnder` (deepcopy.go:312-322). -/
def isRootedUnder (pkg : String) (roots : List String) : Bool :=
  roots.any fun root => leadsWith (root.data ++ ['/']) (pkg.data ++ ['/'])

/-- Mirror of `copyableType` (deepcopy.go:324-339): an explicit opt-out
directive, a non-struct kind, or a private name make a type non-copyable. -/
def copyableType (t : GoType) : Except String Bool := do
  let ttag ← extractTag t.commentLines
  pure (if tagValueIs ttag "false" then false
        else if t.kind ≠ .Struct then false
        else if isPrivateGoName t.name.name then false
        else true)

/-- Mirror of `copyableAndInBounds` (deepcopy.go:278-287). -/
def copyableAndInBounds (boundingDirs : List String) (t : GoType) :
    Except String Bool := do
  let c ← copyableType t
  pure (c && isRootedUnder t.name.pkg boundingDirs)

/-- Mirror of `genDeepCopy.Filter` (deepcopy.go:257-276), without the
`typesForInit` side effect: a type is kept when it is enabled (package-wide
mode or its own opt-in) and copyable. -/
def Filter (allTypes : Bool) (t : GoType) : Except String Bool := do
  let enabled ←
    if allTypes then pure true
    else do
      let ttag ← extractTag t.commentLines
      pure (tagValueIs ttag "true")
  if !enabled then pure false
  else copyableType t

/-- Mirror of `needsGeneration` (deepcopy.go:375-395): a per-type directive
value other than `true`/`false` is fatal; otherwise package mode decides,
with the type's own directive able to opt out of package mode or opt in
outside it. -/
def needsGeneration (allTypes : Bool) (t : GoType) : Except String Bool := do
  let tag ← extractTag t.commentLines
  let tv : String ←
    match tag with
    | none => pure ""
    | some tg =>
        if tg.value ≠ "true" ∧ tg.value ≠ "false" then
          throw "unsupported deepcopy-gen value on type"
        else pure tg.value
  if allTypes && tv = "false" then pure false
  else if !allTypes && tv ≠ "true" then pure false
  else pure true

/-- A package as the generator sees it: its own comment lines and its
types. -/
structure Package where
  comments : List String
  types : List GoType

/-- The type-scan loop of `Packages` (deepcopy.go:173-188): looks for an
explicit opt-in; an opt-in type that is not copyable is fatal; the scan stops
at the first opt-in. -/
def scanTypesForOptIn : List GoType → Except String Bool
  | [] => pure false
  | t :: rest => do
      let ttag ← extractTag t.commentLines
      if tagValueIs ttag "true" then do
        let c ← copyableType t
        if !c then throw "type requests deepcopy generation but is not copyable"
        else pure true
      else scanTypesForOptIn rest

/-- The per-package decision of `Packages` (deepcopy.go:157-188): a
package-level directive must carry the value `package` (anything else is
fatal) and then enables whole-package generation without scanning types;
without a package-level directive the types are scanned for an opt-in.
Returns `(pkgNeedsGeneration, allTypes)` where `allTypes` is the
`ptagValue == tagValuePackage` flag handed to `NewGenDeepCopy`
(deepcopy.go:213). -/
def packagesDecide (pkg : Package) : Except String (Bool × Bool) := do
  let ptag ← extractTag pkg.comments
  let ptagValue : String ←
    match ptag with
    | some tv =>
        if tv.value ≠ tagValuePackage then
          throw "unsupported deepcopy-gen value on package"
        else pure tv.value
    | none => pure ""
  if ptagValue = tagValuePackage then pure (true, true)
  else do
    let b ← scanTypesForOptIn pkg.types
    pure (b, false)

/-! ## The emitted statement templates

Each constructor below corresponds to one statement template the synthesizer
writes with `sw.Do(...)`; a `Name` argument records the type reference the
template interpolates (`$.|raw$`, `$.Elem|raw$`, or the name suffix of a
`DeepCopy<Interface>` call), a `Kind` argument records the shape information
the later semantic evaluator needs to model Go's `make`/`new` zero values.
-/

mutual

/-- One emitted statement of an in-place copy body. -/
inductive Snip where
  /-- `*out = *in` (doBuiltin, and the head of doStruct). -/
  | assignDeref : Snip
  /-- `*out = in.DeepCopy()` (whole-type user override in doSlice/doStruct). -/
  | assignDeepCopyWhole : Name → Snip
  /-- `*out = make($.|raw$, len(*in))` (doMap:581, doSlice:639); records the
  made kind, the element kind (for zero values) and the written type name. -/
  | makeLen : Kind → Kind → Name → Snip
  /-- `copy(*out, *in)` (doSlice:645). -/
  | bulkCopy : Snip
  /-- `for key, val := range *in { ... }` (doMap). -/
  | mapLoop : MapBody → Snip
  /-- `for range *in { // FIXME: Copying unassignable keys unsupported }`
  (doMap:627-629). -/
  | mapKeyUnsupported : Name → Snip
  /-- `for i := range *in { ... }` (doSlice). -/
  | sliceLoop : SliceBody → Snip
  /-- A per-member fix-up of doStruct, for the named field. -/
  | memberFix : String → MemberFix → Snip
  /-- `if *in == nil { *out = nil } else { ... }` (doPointer:741). -/
  | ptrNilCheck : PtrBody → Snip
  /-- `// FIXME: Type $.|raw$ is unsupported.` (doUnknown:770). -/
  | unsupportedMarker : Name → Snip

/-- The per-entry body of a doMap loop. -/
inductive MapBody where
  /-- `(*out)[key] = val.DeepCopy()` (doMap:586). -/
  | valDeepCopy : Name → MapBody
  /-- `(*out)[key] = struct\x7b\x7d\x7b\x7d` (doMap:590). -/
  | valEmptyStruct : MapBody
  /-- `(*out)[key] = val` (doMap:594). -/
  | valAssign : MapBody
  /-- `if val == nil { (*out)[key] = nil } else { (*out)[key] =
  val.DeepCopy<Intf>() }` (doMap:598-600). -/
  | valInterface : Name → MapBody
  /-- `newVal := new($.|raw$); val.DeepCopyInto(newVal); (*out)[key] =
  *newVal` (doMap:604-606). -/
  | valNewDeepCopyInto : Name → MapBody
  /-- `if val == nil { (*out)[key] = nil } else { (*out)[key] = make(...);
  copy((*out)[key], val) }` (doMap:608-611). -/
  | valNilCheckMakeCopy : Name → MapBody
  /-- `(*out)[key] = make(...); copy((*out)[key], val)` with no nil check
  (doMap:613-614, the alias-of-slice-of-builtin case). -/
  | valMakeCopyNoNilCheck : Name → MapBody
  /-- `if val == nil { (*out)[key] = nil } else { (*out)[key] = new(Elem);
  val.DeepCopyInto((*out)[key]) }` (doMap:616-619). -/
  | valPtrNilCheckNewInto : Name → MapBody
  /-- `(*out)[key] = *val.DeepCopy()` (doMap:621, the default case). -/
  | valDerefDeepCopy : Name → MapBody

/-- The per-index body of a doSlice loop. -/
inductive SliceBody where
  /-- `(*out)[i] = (*in)[i].DeepCopy()` (doSlice:642 and 654). -/
  | elemDeepCopy : Name → SliceBody
  /-- `if (*in)[i] != nil { in, out := &(*in)[i], &(*out)[i]; <recurse> }`
  (doSlice:649-652). -/
  | elemNilCheckRecurse : List Snip → SliceBody
  /-- `if (*in)[i] == nil { (*out)[i] = nil } else { (*out)[i] =
  (*in)[i].DeepCopy<Intf>() }` (doSlice:659-661). -/
  | elemInterface : Name → SliceBody
  /-- `if (*in)[i] == nil { (*out)[i] = nil } else { (*out)[i] = new(Elem);
  (*in)[i].DeepCopyInto((*out)[i]) }` (doSlice:663-666). -/
  | elemPtrNilCheckNewInto : Name → SliceBody
  /-- `(*in)[i].DeepCopyInto(&(*out)[i])` (doSlice:668). -/
  | elemStructInto : Name → SliceBody
  /-- `(*out)[i] = (*in)[i].DeepCopy()` (doSlice:670, the default case). -/
  | elemFallbackDeepCopy : Name → SliceBody

/-- The fix-up doStruct emits for one member (after the shallow
`*out = *in`). -/
inductive MemberFix where
  /-- `out.f = in.f.DeepCopy()` for a builtin member with an override
  (doStruct:702). -/
  | builtinDeepCopy : Name → MemberFix
  /-- `if in.f != nil { out.f = in.f.DeepCopy() }` (doStruct:707-709). -/
  | refWithMethod : Name → MemberFix
  /-- `if in.f != nil { in, out := &in.f, &out.f; <recurse> }`
  (doStruct:712-715). -/
  | refRecurse : List Snip → MemberFix
  /-- `out.f = in.f.DeepCopy()` for a struct member with an override
  (doStruct:719). -/
  | structDeepCopy : Name → MemberFix
  /-- `out.f = in.f` for a trivially assignable struct member
  (doStruct:721). -/
  | structAssign : MemberFix
  /-- `in.f.DeepCopyInto(&out.f)` (doStruct:723). -/
  | structInto : Name → MemberFix
  /-- `if in.f == nil { out.f = nil } else { out.f = in.f.DeepCopy<Intf>() }`
  (doStruct:726-728). -/
  | interfaceFix : Name → MemberFix
  /-- `out.f = in.f.DeepCopy()` (doStruct:730, the default case). -/
  | fallbackDeepCopy : Name → MemberFix

/-- The non-nil branch of doPointer's nil check. -/
inductive PtrBody where
  /-- `*out = new(Elem); **out = (*in).DeepCopy()` (doPointer:743-744). -/
  | newDerefMethod : Name → PtrBody
  /-- `*out = new(Elem); **out = **in` (doPointer:746-747). -/
  | newShallow : Name → PtrBody
  /-- `*out = new(Elem); if **in != nil { in, out := *in, *out; <recurse> }`
  (doPointer:751-755); records the pointee kind for the `new` zero value. -/
  | newNilCheckRecurse : Kind → Name → List Snip → PtrBody
  /-- `*out = new(Elem); (*in).DeepCopyInto(*out)` (doPointer:757-758). -/
  | newInto : Name → PtrBody

end

/-- The kind of a type's element, `Unknown` when the element is absent (the
type-universe builder guarantees presence wherever the generator reads
`t.Elem.Kind`). -/
def elemKindD (t : GoType) : Kind :=
  match t.elem with
  | some e => e.kind
  | none => .Unknown

/-- The name of a type's element, empty when the element is absent. -/
def elemNameD (t : GoType) : Name :=
  match t.elem with
  | some e => e.name
  | none => ⟨"", ""⟩

/-- The kind of a type's underlying type, `Unknown` when absent. -/
def underlyingKindD (t : GoType) : Kind :=
  match t.underlying with
  | some u => u.kind
  | none => .Unknown

/-- The kind of the element of a type's underlying type, `Unknown` when
absent. -/
def underlyingElemKindD (t : GoType) : Kind :=
  match t.underlying with
  | some u => elemKindD u
  | none => .Unknown

/-! ## The type-driven synthesizer (`generateFor` and the `do*` handlers,
deepcopy.go:550-771) -/

mutual

/-- Mirror of `generateFor` (deepcopy.go:553-574): kind dispatch. -/
def generateFor (bd : List String) (t : GoType) : Except String (List Snip) :=
  match t.kind with
  | .Builtin => doBuiltin bd t
  | .Map => doMap bd t
  | .Slice => doSlice bd t
  | .Struct => doStruct bd t
  | .Interface => doInterface bd t
  | .Pointer => doPointer bd t
  | .Alias => doAlias bd t
  | .Unknown => doUnknown bd t
termination_by (sizeOf t, 6)
decreasing_by
  all_goals exact Prod.Lex.right _ (by omega)

/-- Mirror of `doBuiltin` (deepcopy.go:576-578). -/
def doBuiltin (_bd : List String) (_t : GoType) : Except String (List Snip) :=
  pure [.assignDeref]

/-- Mirror of `doMap` (deepcopy.go:580-631). -/
def doMap (bd : List String) (t : GoType) : Except String (List Snip) := do
  let mk : Snip := .makeLen .Map (elemKindD t) t.name
  match t.key with
  | none => throw "map type missing Key"
  | some k =>
      if !IsAssignable k then
        pure [mk, .mapKeyUnsupported k.name]
      else
        match t.elem with
        | none => throw "map type missing Elem"
        | some e =>
            if hasDeepCopyMethod e then pure [mk, .mapLoop (.valDeepCopy e.name)]
            else if IsAnonymousStruct e then pure [mk, .mapLoop .valEmptyStruct]
            else if IsAssignable e then pure [mk, .mapLoop .valAssign]
            else if e.kind = .Interface then pure [mk, .mapLoop (.valInterface e.name)]
            else do
              let cb ← copyableAndInBounds bd e
              if cb then pure [mk, .mapLoop (.valNewDeepCopyInto e.name)]
              else if e.kind = .Slice && elemKindD e = .Builtin then
                pure [mk, .mapLoop (.valNilCheckMakeCopy e.name)]
              else if e.kind = .Alias && underlyingKindD e = .Slice
                  && underlyingElemKindD e = .Builtin then
                pure [mk, .mapLoop (.valMakeCopyNoNilCheck e.name)]
              else if e.kind = .Pointer then
                pure [mk, .mapLoop (.valPtrNilCheckNewInto (elemNameD e))]
              else pure [mk, .mapLoop (.valDerefDeepCopy e.name)]

/-- Mirror of `doSlice` (deepcopy.go:633-674). -/
def doSlice (bd : List String) (t : GoType) : Except String (List Snip) := do
  if hasDeepCopyMethod t then pure [.assignDeepCopyWhole t.name]
  else
    let mk : Snip := .makeLen .Slice (elemKindD t) t.name
    match he : t.elem with
    | none => throw "slice type missing Elem"
    | some e =>
        if hasDeepCopyMethod e then pure [mk, .sliceLoop (.elemDeepCopy e.name)]
        else if e.kind = .Builtin || IsAssignable e then pure [mk, .bulkCopy]
        else if e.kind = .Slice then do
          let inner ← generateFor bd e
          pure [mk, .sliceLoop (.elemNilCheckRecurse inner)]
        else if hasDeepCopyMethod e then pure [mk, .sliceLoop (.elemDeepCopy e.name)]
        else if e.kind = .Interface then pure [mk, .sliceLoop (.elemInterface e.name)]
        else if e.kind = .Pointer then
          pure [mk, .sliceLoop (.elemPtrNilCheckNewInto (elemNameD e))]
        else if e.kind = .Struct then pure [mk, .sliceLoop (.elemStructInto e.name)]
        else pure [mk, .sliceLoop (.elemFallbackDeepCopy e.name)]
termination_by (sizeOf t, 3)
decreasing_by
  exact Prod.Lex.left _ _ (sizeOf_elem_lt he)

/-- Mirror of `doStruct` (deepcopy.go:676-733). -/
def doStruct (bd : List String) (t : GoType) : Except String (List Snip) := do
  if hasDeepCopyMethod t then pure [.assignDeepCopyWhole t.name]
  else do
    let fixes ← doStructMembers bd t.members
    pure (.assignDeref :: fixes)
termination_by (sizeOf t, 3)
decreasing_by
  exact Prod.Lex.left _ _ (sizeOf_members_lt t)

/-- The member loop of `doStruct` (deepcopy.go:686-732). -/
def doStructMembers (bd : List String) :
    List (String × GoType) → Except String (List Snip)
  | [] => pure []
  | (mname, mt) :: rest => do
      let fix ← doStructMember bd mname mt
      let restFixes ← doStructMembers bd rest
      pure (fix ++ restFixes)
termination_by ms => (sizeOf ms, 8)
decreasing_by
  all_goals exact Prod.Lex.left _ _ (by simp; try omega)

/-- One iteration of `doStruct`'s member loop: computes the override flag on
the declared member type, then unwraps one alias level, keeping the alias
name (deepcopy.go:687-693). -/
def doStructMember (bd : List String) (mname : String) (mt : GoType) :
    Except String (List Snip) :=
  let hasMethod := hasDeepCopyMethod mt
  match mt.kind, hmu : mt.underlying with
  | .Alias, some u => doStructMemberSwitch bd mname (withName u mt.name) hasMethod
  | .Alias, none => throw "alias member missing Underlying"
  | _, _ => doStructMemberSwitch bd mname mt hasMethod
termination_by (sizeOf mt, 8)
decreasing_by
  · exact Prod.Lex.left _ _ (sizeOf_withName_underlying_lt hmu)
  · exact Prod.Lex.right _ (by omega)

/-- The kind switch of `doStruct`'s member loop (deepcopy.go:699-731). -/
def doStructMemberSwitch (bd : List String) (mname : String) (t : GoType)
    (hasMethod : Bool) : Except String (List Snip) :=
  match t.kind with
  | .Builtin =>
      if hasMethod then pure [.memberFix mname (.builtinDeepCopy t.name)]
      else pure []
  | .Map | .Slice | .Pointer =>
      if hasMethod then pure [.memberFix mname (.refWithMethod t.name)]
      else do
        let inner ← generateFor bd t
        pure [.memberFix mname (.refRecurse inner)]
  | .Struct =>
      if hasMethod then pure [.memberFix mname (.structDeepCopy t.name)]
      else if IsAssignable t then pure [.memberFix mname .structAssign]
      else pure [.memberFix mname (.structInto t.name)]
  | .Interface => pure [.memberFix mname (.interfaceFix t.name)]
  | _ => pure [.memberFix mname (.fallbackDeepCopy t.name)]
termination_by (sizeOf t, 7)
decreasing_by
  all_goals exact Prod.Lex.right _ (by omega)

/-- Mirror of `doInterface` (deepcopy.go:735-738). -/
def doInterface (bd : List String) (t : GoType) : Except String (List Snip) :=
  doUnknown bd t

/-- Mirror of `doPointer` (deepcopy.go:740-762). -/
def doPointer (bd : List String) (t : GoType) : Except String (List Snip) := do
  match he : t.elem with
  | none => throw "pointer type missing Elem"
  | some e =>
      if hasDeepCopyMethod e then pure [.ptrNilCheck (.newDerefMethod e.name)]
      else if IsAssignable e then pure [.ptrNilCheck (.newShallow e.name)]
      else if e.kind = .Map || e.kind = .Slice then do
        let inner ← generateFor bd e
        pure [.ptrNilCheck (.newNilCheckRecurse e.kind e.name inner)]
      else pure [.ptrNilCheck (.newInto e.name)]
termination_by (sizeOf t, 3)
decreasing_by
  exact Prod.Lex.left _ _ (sizeOf_elem_lt he)

/-- Mirror of `doAlias` (deepcopy.go:764-767). -/
def doAlias (bd : List String) (t : GoType) : Except String (List Snip) :=
  doUnknown bd t

/-- Mirror of `doUnknown` (deepcopy.go:769-771). -/
def doUnknown (_bd : List String) (t : GoType) : Except String (List Snip) :=
  pure [.unsupportedMarker t.name]

end

/-! ## Interface adapters (`deepCopyableInterfaces`, `DeepCopyableInterfaces`,
`TypeSlice`, deepcopy.go:429-486)

Resolved interface types are represented by their `Name`: the only attributes
the generator reads from a resolved interface type are its kind (checked to be
`Interface`) and its name (used for `DeepCopy<Name>` and the emitted type
reference).  The type universe is a lookup table from names to kinds.
-/

/-- Mirror of `deepCopyableInterfaces` (deepcopy.go:429-452): parses each
declared fully-qualified name, resolves it in the universe, and fails on an
unresolvable or non-interface target.  Order and duplicates of the tag are
preserved. -/
def deepCopyableInterfaces (univ : List (Name × Kind)) (t : GoType) :
    Except String (List Name) := do
  if t.kind ≠ .Struct then pure []
  else
    let intfs := extractInterfacesTag (t.secondClosestCommentLines ++ t.commentLines)
    intfs.foldlM
      (fun acc intf => do
        let n := ParseFullyQualifiedName intf
        match univ.lookup n with
        | none => throw "unknown type in interfaces tag"
        | some k =>
            if k ≠ .Interface then throw "type in interfaces tag is not an interface"
            else pure (acc ++ [n]))
      []

/-- Insert into an association list keyed by qualified name, replacing an
existing entry: the Go `set[t.String()] = t` of deepcopy.go:461-464. -/
def insertKeyed (acc : List (String × Name)) (k : String) (n : Name) :
    List (String × Name) :=
  match acc with
  | [] => [(k, n)]
  | (k0, n0) :: rest =>
      if k0 = k then (k0, n) :: rest else (k0, n0) :: insertKeyed rest k n

/-- The dedup map of `DeepCopyableInterfaces` (deepcopy.go:461-464). -/
def dedupByQualified (ts : List Name) : List (String × Name) :=
  ts.foldl (fun acc n => insertKeyed acc n.qualified n) []

/-- Lexicographic comparison of character lists by code point — the Go
`<`/`≤` on strings that `TypeSlice.Less` (deepcopy.go:484) compares
`String()` values with. -/
def charListLe : List Char → List Char → Bool
  | [], _ => true
  | _ :: _, [] => false
  | a :: as, b :: bs =>
      if a.toNat < b.toNat then true
      else if b.toNat < a.toNat then false
      else charListLe as bs

/-- Go string `≤`. -/
def strLe (a b : String) : Bool := charListLe a.data b.data

/-- The sorting relation of `TypeSlice` (deepcopy.go:484): compare the
qualified names. -/
def nameLe (a b : Name) : Prop := strLe a.qualified b.qualified = true

instance : DecidableRel nameLe := fun _ _ => instDecidableEqBool _ _

/-- Mirror of `TypeSlice.Sort` (deepcopy.go:481-486): sort by the qualified
name string.  Go's `sort.Sort` with `Less = String() <` produces the unique
ordering once keys are distinct, which the dedup map guarantees, so any
correct sorting algorithm is a faithful model. -/
def typeSliceSort (ts : List Name) : List Name :=
  List.insertionSort nameLe ts

/-- Mirror of `DeepCopyableInterfaces` (deepcopy.go:454-479): dedup by
fully-qualified identity, then a stable sort, then the non-pointer-receiver
flag. -/
def DeepCopyableInterfaces (univ : List (Name × Kind)) (t : GoType) :
    Except String (List Name × Bool) := do
  let ts ← deepCopyableInterfaces univ t
  let result := typeSliceSort ((dedupByQualified ts).map (·.2))
  let nonPointerReceiver ←
    extractNonPointerInterfaces (t.secondClosestCommentLines ++ t.commentLines)
  pure (result, nonPointerReceiver)

/-! ## The per-type entry point (`GenerateType`, deepcopy.go:488-548) -/

/-- The body of an emitted `DeepCopyInto` routine. -/
inductive IntoBody where
  /-- `clone := in.DeepCopy(); *out = *clone` — wrapper over a user
  `DeepCopy` with pointer receiver (deepcopy.go:503-505). -/
  | wrapperPtrReceiver : IntoBody
  /-- `*out = in.DeepCopy()` — wrapper over a user `DeepCopy` with value
  receiver (deepcopy.go:507). -/
  | wrapperValueReceiver : IntoBody
  /-- A generated body (deepcopy.go:511). -/
  | generated : List Snip → IntoBody

/-- One routine emitted by `GenerateType`. -/
inductive Routine where
  /-- `func (in *T) DeepCopyInto(out *T)` with the given body. -/
  | deepCopyInto : IntoBody → Routine
  /-- `func (in *T) DeepCopy() *T` — the allocating template
  `if in == nil { return nil }; out := new(T); in.DeepCopyInto(out); return
  out` (deepcopy.go:518-524). -/
  | deepCopyAlloc : Routine
  /-- `func (in ...) DeepCopy<Intf>() Intf` for the named interface, with the
  non-pointer-receiver flag (deepcopy.go:531-544). -/
  | adapter : Name → Bool → Routine

/-- Mirror of `GenerateType` (deepcopy.go:488-548): the `needsGeneration`
gate, the per-routine user-override checks (plain name lookups on the method
set), the generated or wrapper `DeepCopyInto`, the allocating `DeepCopy`
template, and one adapter per declared interface. -/
def GenerateType (bd : List String) (univ : List (Name × Kind))
    (allTypes : Bool) (t : GoType) : Except String (List Routine) := do
  if !(← needsGeneration allTypes t) then pure []
  else do
    let foundDeepCopyInto := (t.methods.lookup "DeepCopyInto").isSome
    let intoRs ←
      if !foundDeepCopyInto then do
        match t.methods.lookup "DeepCopy" with
        | some m =>
            if m.receiverKind = .Pointer then
              pure [Routine.deepCopyInto .wrapperPtrReceiver]
            else pure [Routine.deepCopyInto .wrapperValueReceiver]
        | none => do
            let snips ← generateFor bd t
            pure [Routine.deepCopyInto (.generated snips)]
      else pure []
    let foundDeepCopy := (t.methods.lookup "DeepCopy").isSome
    let copyRs := if !foundDeepCopy then [Routine.deepCopyAlloc] else []
    let (intfs, nonPointerReceiver) ← DeepCopyableInterfaces univ t
    pure (intoRs ++ copyRs
      ++ intfs.map (fun n => Routine.adapter n nonPointerReceiver))

/-! ## Semantics of the emitted statements

A value domain for Go values of the shapes the generator handles.  `none`
models Go `nil` for pointers, slices, maps and interfaces.  Map keys are
modelled as strings (the generator only loops over maps whose key type is
trivially assignable); a Go map is an association list with distinct keys.
-/

/-- A runtime Go value. -/
inductive Value where
  | prim : String → Value
  | ptr : Option Value → Value
  | slice : Option (List Value) → Value
  | vmap : Option (List (String × Value)) → Value
  | struct : List (String × Value) → Value
  | intf : Option Value → Value

/-- A `nil` comparison `x != nil` / `x == nil` on a reference-shaped
value. -/
def isNilValue : Value → Bool
  | .ptr none => true
  | .slice none => true
  | .vmap none => true
  | .intf none => true
  | _ => false

/-- The Go zero value of a shape of the given kind, as observed by the
emitted code: `make` fills new slices with element zero values, `new` yields
a pointee zero value.  The zero is nil for every reference kind; the emitted
statements overwrite the zero before reading it for every other kind, so
builtins and structs are modelled shallowly. -/
def zeroOfKind : Kind → Value
  | .Pointer => .ptr none
  | .Slice => .slice none
  | .Map => .vmap none
  | .Interface => .intf none
  | .Struct => .struct []
  | _ => .prim ""

/-- A record of one `DeepCopy` / `DeepCopyInto` / `DeepCopy<Intf>` method
call the emitted code performs — the "deeper copying" the nil-propagation
contract is about. -/
structure Call where
  method : String
  typeName : Name
  arg : Value

/-- The methods the emitted code can call: user-supplied or separately
generated `DeepCopy` (receiver value, returns a value), `DeepCopyInto`
(receiver the source, returns the value written through `out`), and the
per-interface `DeepCopy<Intf>`.  The nil-propagation theorems quantify over
the oracle: whatever the callees do, a nil source never reaches them. -/
structure Oracle where
  deepCopy : Name → Value → Value
  deepCopyInto : Name → Value → Value
  deepCopyIntf : Name → Value → Value

/-- Replace (or add) the binding of `f` in an association list. -/
def setAssoc (l : List (String × Value)) (f : String) (v : Value) :
    List (String × Value) :=
  match l with
  | [] => [(f, v)]
  | (f0, v0) :: rest =>
      if f0 = f then (f0, v) :: rest else (f0, v0) :: setAssoc rest f v

/-- Per-entry semantics of a doMap loop body: the value written to
`(*out)[key]` for the source entry `val`, with the method calls made. -/
def evalMapEntry (o : Oracle) (body : MapBody) (val : Value) :
    Except String (Value × List Call) :=
  match body with
  | .valDeepCopy n => pure (o.deepCopy n val, [⟨"DeepCopy", n, val⟩])
  | .valEmptyStruct => pure (.struct [], [])
  | .valAssign => pure (val, [])
  | .valInterface n =>
      if isNilValue val then pure (.intf none, [])
      else pure (o.deepCopyIntf n val, [⟨"DeepCopyIntf", n, val⟩])
  | .valNewDeepCopyInto n => pure (o.deepCopyInto n val, [⟨"DeepCopyInto", n, val⟩])
  | .valNilCheckMakeCopy _ =>
      match val with
      | .slice none => pure (.slice none, [])
      | .slice (some l) => pure (.slice (some l), [])
      | _ => throw "map value shape mismatch"
  | .valMakeCopyNoNilCheck _ =>
      match val with
      | .slice l => pure (.slice (some (l.getD [])), [])
      | _ => throw "map value shape mismatch"
  | .valPtrNilCheckNewInto n =>
      match val with
      | .ptr none => pure (.ptr none, [])
      | .ptr (some pv) => pure (.ptr (some (o.deepCopyInto n pv)), [⟨"DeepCopyInto", n, pv⟩])
      | _ => throw "map value shape mismatch"
  | .valDerefDeepCopy n =>
      match o.deepCopy n val with
      | .ptr (some c) => pure (c, [⟨"DeepCopy", n, val⟩])
      | .ptr none => throw "nil dereference"
      | _ => throw "DeepCopy result shape mismatch"

/-- The doMap loop over the source entries. -/
def evalMapEntries (o : Oracle) (body : MapBody) :
    List (String × Value) → Except String (List (String × Value) × List Call)
  | [] => pure ([], [])
  | (k, v) :: rest => do
      let (nv, l1) ← evalMapEntry o body v
      let (nvs, l2) ← evalMapEntries o body rest
      pure ((k, nv) :: nvs, l1 ++ l2)

mutual

/-- Sequential semantics of an emitted statement list: `inV` is the value
`*in` points to (never written), the result is the final value of `*out`
together with all method calls made. -/
def evalSnips (o : Oracle) (snips : List Snip) (inV outV : Value) :
    Except String (Value × List Call) :=
  match snips with
  | [] => pure (outV, [])
  | s :: rest => do
      let (out1, l1) ← evalSnip o s inV outV
      let (out2, l2) ← evalSnips o rest inV out1
      pure (out2, l1 ++ l2)
termination_by (sizeOf snips, 0)
decreasing_by
  all_goals exact Prod.Lex.left _ _ (by simp; try omega)

/-- Semantics of one emitted statement. -/
def evalSnip (o : Oracle) (s : Snip) (inV outV : Value) :
    Except String (Value × List Call) :=
  match s with
  | .assignDeref => pure (inV, [])
  | .assignDeepCopyWhole n => pure (o.deepCopy n inV, [⟨"DeepCopy", n, inV⟩])
  | .makeLen k ek _ =>
      match k, inV with
      | .Slice, .slice l =>
          pure (.slice (some ((l.getD []).map (fun _ => zeroOfKind ek))), [])
      | .Map, .vmap _ => pure (.vmap (some []), [])
      | _, _ => throw "make shape mismatch"
  | .bulkCopy =>
      match inV, outV with
      | .slice li, .slice lo =>
          let li := li.getD []
          let lo := lo.getD []
          pure (.slice (some (li.take lo.length ++ lo.drop li.length)), [])
      | _, _ => throw "copy shape mismatch"
  | .mapLoop body =>
      match inV with
      | .vmap none => pure (outV, [])
      | .vmap (some entries) => do
          let (nes, l) ← evalMapEntries o body entries
          pure (.vmap (some nes), l)
      | _ => throw "map shape mismatch"
  | .mapKeyUnsupported _ => pure (outV, [])
  | .sliceLoop body =>
      match inV, outV with
      | .slice li, .slice lo => do
          let (nlo, l) ← evalSliceEntries o body (li.getD []) (lo.getD [])
          pure (.slice (some nlo), l)
      | _, _ => throw "slice shape mismatch"
  | .memberFix fname fix =>
      match inV, outV with
      | .struct fin, .struct fout =>
          match fin.lookup fname with
          | none => throw "missing field"
          | some iv => do
              let ov := (fout.lookup fname).getD iv
              let (nv, l) ← evalMemberFix o fix iv ov
              pure (.struct (setAssoc fout fname nv), l)
      | _, _ => throw "struct shape mismatch"
  | .ptrNilCheck body =>
      match inV with
      | .ptr none => pure (.ptr none, [])
      | .ptr (some pv) => evalPtrBody o body pv
      | _ => throw "pointer shape mismatch"
  | .unsupportedMarker _ => pure (outV, [])
termination_by (sizeOf s, 0)
decreasing_by
  all_goals exact Prod.Lex.left _ _ (by simp; try omega)

/-- Per-member semantics of a doStruct fix-up: given the source field value
and the current destination field value (left by the shallow `*out = *in`),
the new destination field value. -/
def evalMemberFix (o : Oracle) (fix : MemberFix) (iv ov : Value) :
    Except String (Value × List Call) :=
  match fix with
  | .builtinDeepCopy n => pure (o.deepCopy n iv, [⟨"DeepCopy", n, iv⟩])
  | .refWithMethod n =>
      if isNilValue iv then pure (ov, [])
      else pure (o.deepCopy n iv, [⟨"DeepCopy", n, iv⟩])
  | .refRecurse inner =>
      if isNilValue iv then pure (ov, [])
      else evalSnips o inner iv ov
  | .structDeepCopy n => pure (o.deepCopy n iv, [⟨"DeepCopy", n, iv⟩])
  | .structAssign => pure (iv, [])
  | .structInto n => pure (o.deepCopyInto n iv, [⟨"DeepCopyInto", n, iv⟩])
  | .interfaceFix n =>
      if isNilValue iv then pure (.intf none, [])
      else pure (o.deepCopyIntf n iv, [⟨"DeepCopyIntf", n, iv⟩])
  | .fallbackDeepCopy n => pure (o.deepCopy n iv, [⟨"DeepCopy", n, iv⟩])
termination_by (sizeOf fix, 0)
decreasing_by
  all_goals exact Prod.Lex.left _ _ (by simp; try omega)

/-- Semantics of the non-nil branch of doPointer: given the non-nil source
pointee, the new value of `*out` (a pointer). -/
def evalPtrBody (o : Oracle) (body : PtrBody) (pv : Value) :
    Except String (Value × List Call) :=
  match body with
  | .newDerefMethod n => pure (.ptr (some (o.deepCopy n pv)), [⟨"DeepCopy", n, pv⟩])
  | .newShallow _ => pure (.ptr (some pv), [])
  | .newNilCheckRecurse ek _ inner =>
      if isNilValue pv then pure (.ptr (some (zeroOfKind ek)), [])
      else do
        let (res, l) ← evalSnips o inner pv (zeroOfKind ek)
        pure (.ptr (some res), l)
  | .newInto n => pure (.ptr (some (o.deepCopyInto n pv)), [⟨"DeepCopyInto", n, pv⟩])
termination_by (sizeOf body, 0)
decreasing_by
  all_goals exact Prod.Lex.left _ _ (by simp; try omega)

/-- The doSlice loop: pairs each source element with the zero-initialised
destination element `make` produced. -/
def evalSliceEntries (o : Oracle) (body : SliceBody) :
    List Value → List Value → Except String (List Value × List Call)
  | [], _ => pure ([], [])
  | iv :: ivs, ovs => do
      let ov := ovs.headD (.prim "")
      let (nv, l1) ←
        match body with
        | .elemDeepCopy n => pure (o.deepCopy n iv, [⟨"DeepCopy", n, iv⟩])
        | .elemNilCheckRecurse inner =>
            if isNilValue iv then pure (ov, [])
            else evalSnips o inner iv ov
        | .elemInterface n =>
            if isNilValue iv then pure (Value.intf none, [])
            else pure (o.deepCopyIntf n iv, [⟨"DeepCopyIntf", n, iv⟩])
        | .elemPtrNilCheckNewInto n =>
            match iv with
            | .ptr none => pure (Value.ptr none, [])
            | .ptr (some pv) =>
                pure (Value.ptr (some (o.deepCopyInto n pv)), [⟨"DeepCopyInto", n, pv⟩])
            | _ => throw "slice element shape mismatch"
        | .elemStructInto n => pure (o.deepCopyInto n iv, [⟨"DeepCopyInto", n, iv⟩])
        | .elemFallbackDeepCopy n => pure (o.deepCopy n iv, [⟨"DeepCopy", n, iv⟩])
      let (nvs, l2) ← evalSliceEntries o body ivs (ovs.drop 1)
      pure (nv :: nvs, l1 ++ l2)
termination_by ivsArg _ => (sizeOf body, sizeOf ivsArg)
decreasing_by
  all_goals first
    | exact Prod.Lex.right _ (by simp; try omega)
    | exact Prod.Lex.left _ _ (by simp; try omega)

end

/-- Semantics of an emitted `DeepCopyInto` routine body of type `tname`:
`inV` is the (non-nil) receiver's pointee, `outV` the current pointee of
`out`. -/
def evalIntoBody (o : Oracle) (tname : Name) (body : IntoBody) (inV outV : Value) :
    Except String (Value × List Call) :=
  match body with
  | .wrapperPtrReceiver =>
      match o.deepCopy tname inV with
      | .ptr (some v) => pure (v, [⟨"DeepCopy", tname, inV⟩])
      | .ptr none => throw "nil dereference"
      | _ => throw "DeepCopy result shape mismatch"
  | .wrapperValueReceiver => pure (o.deepCopy tname inV, [⟨"DeepCopy", tname, inV⟩])
  | .generated snips => evalSnips o snips inV outV

/-- Semantics of the allocating `DeepCopy` template (deepcopy.go:518-524):
`if in == nil { return nil }; out := new(T); in.DeepCopyInto(out); return
out`, with `intoSem` the semantics of the type's `DeepCopyInto` on a freshly
allocated zero destination. -/
def evalDeepCopyAlloc (intoSem : Value → Except String (Value × List Call))
    (recv : Option Value) : Except String (Option Value × List Call) :=
  match recv with
  | none => pure (none, [])
  | some v => do
      let (out, l) ← intoSem v
      pure (some out, l)

/-- What a generated interface adapter can return: a nil interface value, a
non-nil interface value wrapping a concrete pointer (possibly itself nil),
or a non-nil interface value wrapping a concrete non-pointer value. -/
inductive AdapterResult where
  | nilInterface
  | wrapsPointer : Option Value → AdapterResult
  | wrapsValue : Value → AdapterResult

/-- Semantics of the pointer-receiver adapter template (deepcopy.go:538-543):
`if c := in.DeepCopy(); c != nil { return c }; return nil`, where `dc` is
the receiver type's allocating `DeepCopy` as a function on pointers.  The
explicit `return nil` makes a nil `DeepCopy` result a nil interface value
rather than a non-nil interface wrapping a nil pointer. -/
def evalAdapterPtrRecv (dc : Option Value → Option Value) (recv : Option Value) :
    AdapterResult :=
  match dc recv with
  | some c => .wrapsPointer (some c)
  | none => .nilInterface

/-- Semantics of the non-pointer-receiver adapter template
(deepcopy.go:534-536): `return *in.DeepCopy()` on a value receiver — the
allocating-copy result is dereferenced and returned as the interface
value. -/
def evalAdapterValueRecv (dc : Option Value → Option Value) (recv : Value) :
    Except String AdapterResult :=
  match dc (some recv) with
  | some c => pure (.wrapsValue c)
  | none => throw "nil dereference"

/-! ## Concrete fixtures used by witnesses and counterexamples -/

/-- The builtin `string` type. -/
def tString : GoType := .mk .Builtin ⟨"", "string"⟩ [] none none none [] [] []

/-- A plain exported struct `p.T` with one builtin field and no directives
or methods. -/
def tT : GoType := .mk .Struct ⟨"p", "T"⟩ [("X", tString)] none none none [] [] []

/-- The anonymous slice type `[]p.T`. -/
def tSliceT : GoType := .mk .Slice ⟨"", ""⟩ [] (some tT) none none [] [] []

/-- The anonymous map type `map[string][]p.T` — a map whose values are
slices of structs. -/
def tMapSliceT : GoType := .mk .Map ⟨"", ""⟩ [] (some tSliceT) (some tString) none [] [] []

/-- An exported struct `p.Cfg` whose single field is a
`map[string][]p.T`. -/
def tCfg : GoType := .mk .Struct ⟨"p", "Cfg"⟩ [("M", tMapSliceT)] none none none [] [] []

/-- A private struct type carrying an explicit opt-in directive — the
structurally ineligible opt-in of claim C3. -/
def tBadOptIn : GoType :=
  .mk .Struct ⟨"p", "hidden"⟩ [] none none none [] ["+k8s:deepcopy-gen=true"] []

/-- An exported struct type carrying an explicit opt-in directive. -/
def tGoodOptIn : GoType :=
  .mk .Struct ⟨"p", "Good"⟩ [] none none none [] ["+k8s:deepcopy-gen=true"] []

/-- An oracle with arbitrary concrete behaviour, used to exhibit that an
unguarded emitted call site really invokes deeper copying: its `DeepCopy`
returns a pointer to an empty (non-nil) slice. -/
def demoOracle : Oracle where
  deepCopy := fun _ _ => .ptr (some (.slice (some [])))
  deepCopyInto := fun _ v => v
  deepCopyIntf := fun _ _ => .intf none

/-! ## Generic helpers about `Except` -/

@[simp] theorem pure_except {α : Type} (a : α) :
    (pure a : Except String α) = .ok a := rfl

@[simp] theorem throw_except {α : Type} (e : String) :
    (throw e : Except String α) = .error e := rfl

@[simp] theorem ok_bind {α β : Type} (a : α) (f : α → Except String β) :
    (Except.ok a >>= f) = f a := rfl

@[simp] theorem error_bind {α β : Type} (e : String) (f : α → Except String β) :
    ((Except.error e : Except String α) >>= f) = .error e := rfl

theorem except_bind_ok {α β : Type} {e : Except String α} {f : α → Except String β}
    {b : β} (h : (e >>= f) = .ok b) : ∃ a, e = .ok a ∧ f a = .ok b := by
  cases e with
  | ok a => exact ⟨a, rfl, h⟩
  | error msg => simp [Bind.bind, Except.bind] at h

theorem except_map_ok {α β : Type} {e : Except String α} {f : α → β} {b : β}
    (h : Except.map f e = .ok b) : ∃ a, e = .ok a ∧ f a = b := by
  cases e with
  | ok a =>
    refine ⟨a, rfl, ?_⟩
    simpa [Except.map] using h
  | error msg => simp [Except.map] at h

/-! ## Claim C6 — occurrence counting in `extractTag` -/

/-- Claim C6 as frozen is falsified by a comment block in which the primary
tag appears exactly once but carries an unsupported sub-option: `extractTag`
aborts instead of returning a parsed directive. -/
theorem claim_C6_counterexample :
    extractCommentTagValues tagName ["+k8s:deepcopy-gen=true,frobnicate=1"]
        = ["true,frobnicate=1"] ∧
    extractTag ["+k8s:deepcopy-gen=true,frobnicate=1"]
        = .error "unsupported deepcopy-gen param" := by
  constructor
  · rfl
  · rfl

/-- Claim C6 (amended): for every comment block, `extractTag` returns no
directive when the tag is absent, returns exactly one parsed directive when
the tag appears once and its sub-options are well formed (an unsupported
sub-option in the single occurrence is itself a fatal error), and treats more
than one occurrence of the primary generation tag as a fatal error rather
than silently taking one occurrence or merging them. -/
theorem claim_C6_amended :
    (∀ comments, extractCommentTagValues tagName comments = [] →
      extractTag comments = .ok none) ∧
    (∀ comments v tv, extractCommentTagValues tagName comments = [v] →
      parseTagValue v = .ok tv → extractTag comments = .ok (some tv)) ∧
    (∀ comments v w vs, extractCommentTagValues tagName comments = v :: w :: vs →
      extractTag comments = .error "found multiple deepcopy-gen tags") := by
  refine ⟨?_, ?_, ?_⟩
  · intro comments h
    simp [extractTag, h]
  · intro comments v tv h hp
    simp [extractTag, h, hp]
  · intro comments v w vs h
    simp [extractTag, h]

/-- Witness for the amended claim C6: a block with no tag, a block with one
well-formed occurrence, and a block with two occurrences. -/
theorem claim_C6_witness :
    extractTag ["just a comment"] = .ok none ∧
    extractTag ["+k8s:deepcopy-gen=true,register"]
      = .ok (some { value := "true", register := true }) ∧
    extractTag ["+k8s:deepcopy-gen=package", "+k8s:deepcopy-gen=true"]
      = .error "found multiple deepcopy-gen tags" := by
  refine ⟨?_, ?_, ?_⟩
  · exact claim_C6_amended.1 ["just a comment"] rfl
  · exact claim_C6_amended.2.1 ["+k8s:deepcopy-gen=true,register"]
      "true,register" { value := "true", register := true } rfl rfl
  · exact claim_C6_amended.2.2 ["+k8s:deepcopy-gen=package", "+k8s:deepcopy-gen=true"]
      "package" "true" [] rfl

/-! ## Claim C10 — per-type directive values at emission time -/

/-- Claim C10: at per-type emission time (`needsGeneration`), a directive
value other than `true`/`false` is fatal, while a type with no directive is
included exactly when the package is in generate-all mode and is never an
error. -/
theorem claim_C10 :
    (∀ allTypes t tv, extractTag t.commentLines = .ok (some tv) →
      tv.value ≠ "true" → tv.value ≠ "false" →
      needsGeneration allTypes t = .error "unsupported deepcopy-gen value on type") ∧
    (∀ allTypes t, extractTag t.commentLines = .ok none →
      needsGeneration allTypes t = .ok allTypes) := by
  constructor
  · intro allTypes t tv h h1 h2
    simp [needsGeneration, h, h1, h2]
  · intro allTypes t h
    cases allTypes <;> simp [needsGeneration, h]

/-- Witness for claim C10: a type tagged `package` is a fatal error at
emission time; an untagged type follows package mode in both modes. -/
theorem claim_C10_witness :
    needsGeneration true
        (.mk .Struct ⟨"p", "S"⟩ [] none none none [] ["+k8s:deepcopy-gen=package"] [])
      = .error "unsupported deepcopy-gen value on type" ∧
    needsGeneration true tT = .ok true ∧
    needsGeneration false tT = .ok false := by
  refine ⟨?_, ?_, ?_⟩
  · exact claim_C10.1 true _ { value := "package", register := false } rfl
      (by decide) (by decide)
  · exact claim_C10.2 true tT rfl
  · exact claim_C10.2 false tT rfl

/-! ## Claims C3 and C4 — the package-level decision and the opt-in scan -/

theorem packagesDecide_package {pkg : Package} {tv : tagValue}
    (h : extractTag pkg.comments = .ok (some tv)) (hv : tv.value = tagValuePackage) :
    packagesDecide pkg = .ok (true, true) := by
  simp [packagesDecide, h, hv]

theorem packagesDecide_badTag {pkg : Package} {tv : tagValue}
    (h : extractTag pkg.comments = .ok (some tv)) (hv : tv.value ≠ tagValuePackage) :
    packagesDecide pkg = .error "unsupported deepcopy-gen value on package" := by
  simp [packagesDecide, h, hv]

theorem packagesDecide_noTag {pkg : Package}
    (h : extractTag pkg.comments = .ok none) :
    packagesDecide pkg = (scanTypesForOptIn pkg.types).map (fun b => (b, false)) := by
  have : ("" : String) ≠ tagValuePackage := by decide
  cases hs : scanTypesForOptIn pkg.types with
  | ok b => simp [packagesDecide, h, tagValuePackage, hs, Except.map]
  | error e => simp [packagesDecide, h, tagValuePackage, hs, Except.map]

theorem scan_skip {pre rest : List GoType}
    (h : ∀ x ∈ pre, ∃ r, extractTag x.commentLines = .ok r ∧ tagValueIs r "true" = false) :
    scanTypesForOptIn (pre ++ rest) = scanTypesForOptIn rest := by
  induction pre with
  | nil => rfl
  | cons t ts ih =>
    obtain ⟨r, hr, hv⟩ := h t (by simp)
    have := ih (fun x hx => h x (by simp [hx]))
    simpa [scanTypesForOptIn, hr, hv] using this

theorem scan_first_bad {t : GoType} {rest : List GoType} {r : Option tagValue}
    (h : extractTag t.commentLines = .ok r) (hv : tagValueIs r "true" = true)
    (hc : copyableType t = .ok false) :
    scanTypesForOptIn (t :: rest)
      = .error "type requests deepcopy generation but is not copyable" := by
  simp [scanTypesForOptIn, h, hv, hc]

theorem scan_first_good {t : GoType} {rest : List GoType} {r : Option tagValue}
    (h : extractTag t.commentLines = .ok r) (hv : tagValueIs r "true" = true)
    (hc : copyableType t = .ok true) :
    scanTypesForOptIn (t :: rest) = .ok true := by
  simp [scanTypesForOptIn, h, hv, hc]

theorem needsGeneration_noTag_scanMode {t : GoType}
    (h : extractTag t.commentLines = .ok none) :
    needsGeneration false t = .ok false := by
  simp [needsGeneration, h]

theorem needsGeneration_optIn_scanMode {t : GoType} {tv : tagValue}
    (h : extractTag t.commentLines = .ok (some tv)) (hv : tv.value = "true") :
    needsGeneration false t = .ok true := by
  simp [needsGeneration, h, hv]

/-- Claim C3 as frozen is falsified on both counts it quantifies over: with
the package already in generate-all mode (`package` directive) the scan is
skipped entirely and a private opt-in type raises no error anywhere (the
later `Filter` silently drops it), and in scan mode an earlier eligible
opt-in stops the scan before the ineligible opt-in type is ever checked. -/
theorem claim_C3_counterexample :
    extractTag tBadOptIn.commentLines
      = .ok (some { value := "true", register := false }) ∧
    copyableType tBadOptIn = .ok false ∧
    packagesDecide ⟨["+k8s:deepcopy-gen=package"], [tBadOptIn]⟩ = .ok (true, true) ∧
    Filter true tBadOptIn = .ok false ∧
    scanTypesForOptIn [tGoodOptIn, tBadOptIn] = .ok true := by
  refine ⟨rfl, rfl, rfl, rfl, rfl⟩

/-- Claim C3 (amended): an opt-in type that fails structural eligibility is
fatal exactly when the package is not in generate-all mode and the type is
the first opt-in reached in scan order: a package-level `package` directive
skips the scan entirely, a prefix of non-opt-in types is skipped, the first
opt-in decides (fatal when ineligible, stop-with-success when eligible). -/
theorem claim_C3_amended :
    (∀ pkg tv, extractTag pkg.comments = .ok (some tv) → tv.value = tagValuePackage →
      packagesDecide pkg = .ok (true, true)) ∧
    (∀ pkg, extractTag pkg.comments = .ok none →
      packagesDecide pkg = (scanTypesForOptIn pkg.types).map (fun b => (b, false))) ∧
    (∀ pre rest : List GoType,
      (∀ x ∈ pre, ∃ r, extractTag x.commentLines = .ok r ∧ tagValueIs r "true" = false) →
      scanTypesForOptIn (pre ++ rest) = scanTypesForOptIn rest) ∧
    (∀ (t : GoType) (rest : List GoType) r,
      extractTag t.commentLines = .ok r → tagValueIs r "true" = true →
      copyableType t = .ok false →
      scanTypesForOptIn (t :: rest)
        = .error "type requests deepcopy generation but is not copyable") ∧
    (∀ (t : GoType) (rest : List GoType) r,
      extractTag t.commentLines = .ok r → tagValueIs r "true" = true →
      copyableType t = .ok true → scanTypesForOptIn (t :: rest) = .ok true) := by
  refine ⟨?_, ?_, ?_, ?_, ?_⟩
  · intro pkg tv h hv
    exact packagesDecide_package h hv
  · intro pkg h
    exact packagesDecide_noTag h
  · intro pre rest h
    exact scan_skip h
  · intro t rest r h hv hc
    exact scan_first_bad h hv hc
  · intro t rest r h hv hc
    exact scan_first_good h hv hc

/-- Witness for the amended claim C3, at the concrete package fixtures. -/
theorem claim_C3_witness :
    packagesDecide ⟨["+k8s:deepcopy-gen=package"], [tBadOptIn]⟩ = .ok (true, true) ∧
    scanTypesForOptIn ([tT] ++ [tBadOptIn])
      = .error "type requests deepcopy generation but is not copyable" ∧
    scanTypesForOptIn [tGoodOptIn, tBadOptIn] = .ok true := by
  refine ⟨?_, ?_, ?_⟩
  · exact claim_C3_amended.1 ⟨["+k8s:deepcopy-gen=package"], [tBadOptIn]⟩
      { value := "package", register := false } rfl rfl
  · rw [claim_C3_amended.2.2.1 [tT] [tBadOptIn]
      (by intro x hx; simp at hx; subst hx; exact ⟨none, rfl, rfl⟩)]
    exact claim_C3_amended.2.2.2.1 tBadOptIn []
      (some { value := "true", register := false }) rfl rfl rfl
  · exact claim_C3_amended.2.2.2.2 tGoodOptIn [tBadOptIn]
      (some { value := "true", register := false }) rfl rfl rfl

/-- Claim C4 as frozen is falsified by its parenthetical: a package-level
directive whose primary value is not `package` (here `true`) does not fall
back to scanning the package's types — it aborts the run, even though the
package contains a type whose opt-in the predicted scan would find. -/
theorem claim_C4_counterexample :
    extractTag ["+k8s:deepcopy-gen=true"]
      = .ok (some { value := "true", register := false }) ∧
    scanTypesForOptIn [tGoodOptIn] = .ok true ∧
    packagesDecide ⟨["+k8s:deepcopy-gen=true"], [tGoodOptIn]⟩
      = .error "unsupported deepcopy-gen value on package" := by
  refine ⟨rfl, rfl, rfl⟩

/-- Claim C4 (amended): a package-level directive's primary value must be
the literal `package` — when present with `package` the whole package enters
generate-all mode without scanning types (the outcome does not depend on the
type list), when present with any other value the run aborts, and only when
absent does the filter scan the types for an explicit per-type opt-in, whose
first hit enables generation; per-type emission still re-checks each type's
own directive in scan mode. -/
theorem claim_C4_amended :
    (∀ pkg tv, extractTag pkg.comments = .ok (some tv) → tv.value ≠ tagValuePackage →
      packagesDecide pkg = .error "unsupported deepcopy-gen value on package") ∧
    (∀ comments tv (ts ts' : List GoType), extractTag comments = .ok (some tv) →
      tv.value = tagValuePackage →
      packagesDecide ⟨comments, ts⟩ = .ok (true, true) ∧
      packagesDecide ⟨comments, ts⟩ = packagesDecide ⟨comments, ts'⟩) ∧
    (∀ pkg, extractTag pkg.comments = .ok none →
      packagesDecide pkg = (scanTypesForOptIn pkg.types).map (fun b => (b, false))) ∧
    (∀ (t : GoType) (rest : List GoType) r,
      extractTag t.commentLines = .ok r → tagValueIs r "true" = true →
      copyableType t = .ok true → scanTypesForOptIn (t :: rest) = .ok true) ∧
    (∀ t : GoType, extractTag t.commentLines = .ok none →
      needsGeneration false t = .ok false) ∧
    (∀ (t : GoType) tv, extractTag t.commentLines = .ok (some tv) → tv.value = "true" →
      needsGeneration false t = .ok true) := by
  refine ⟨?_, ?_, ?_, ?_, ?_, ?_⟩
  · intro pkg tv h hv
    exact packagesDecide_badTag h hv
  · intro comments tv ts ts' h hv
    constructor
    · exact @packagesDecide_package ⟨comments, ts⟩ tv h hv
    · rw [@packagesDecide_package ⟨comments, ts⟩ tv h hv,
        @packagesDecide_package ⟨comments, ts'⟩ tv h hv]
  · intro pkg h
    exact packagesDecide_noTag h
  · intro t rest r h hv hc
    exact scan_first_good h hv hc
  · intro t h
    exact needsGeneration_noTag_scanMode h
  · intro t tv h hv
    exact needsGeneration_optIn_scanMode h hv

/-- Witness for the amended claim C4, at the concrete package fixtures. -/
theorem claim_C4_witness :
    packagesDecide ⟨["+k8s:deepcopy-gen=false"], []⟩
      = .error "unsupported deepcopy-gen value on package" ∧
    packagesDecide ⟨["+k8s:deepcopy-gen=package"], [tGoodOptIn]⟩
      = packagesDecide ⟨["+k8s:deepcopy-gen=package"], []⟩ ∧
    packagesDecide ⟨[], [tGoodOptIn]⟩ = .ok (true, false) ∧
    needsGeneration false tGoodOptIn = .ok true ∧
    needsGeneration false tT = .ok false := by
  refine ⟨?_, ?_, ?_, ?_, ?_⟩
  · exact claim_C4_amended.1 ⟨["+k8s:deepcopy-gen=false"], []⟩
      { value := "false", register := false } rfl (by decide)
  · exact (claim_C4_amended.2.1 ["+k8s:deepcopy-gen=package"]
      { value := "package", register := false } [tGoodOptIn] [] rfl rfl).2
  · rw [claim_C4_amended.2.2.1 ⟨[], [tGoodOptIn]⟩ rfl]
    rw [claim_C4_amended.2.2.2.1 tGoodOptIn []
      (some { value := "true", register := false }) rfl rfl rfl]
    rfl
  · exact claim_C4_amended.2.2.2.2.2 tGoodOptIn
      { value := "true", register := false } rfl rfl
  · exact claim_C4_amended.2.2.2.2.1 tT rfl

/-! ## Claim C2 — user-supplied `DeepCopy` / `DeepCopyInto` never shadowed -/

theorem hasDeepCopyMethod_lookup {t : GoType} (h : hasDeepCopyMethod t = true) :
    ∃ m, t.methods.lookup "DeepCopy" = some m := by
  unfold hasDeepCopyMethod at h
  cases hl : t.methods.lookup "DeepCopy" with
  | none => rw [hl] at h; simp at h
  | some m => exact ⟨m, rfl⟩

/-- Claim C2: a user-supplied `DeepCopy` method suppresses the allocating
routine entirely and turns the in-place routine into a thin wrapper calling
the user's method (pointer- or value-receiver variant); the two checks are
independent name lookups, so a user-supplied `DeepCopyInto` suppresses only
the in-place routine, and the allocating routine is still generated when
only `DeepCopyInto` is user-supplied. -/
theorem claim_C2 :
    (∀ bd univ allTypes (t : GoType) m intfs np rs,
      needsGeneration allTypes t = .ok true →
      t.methods.lookup "DeepCopyInto" = none →
      t.methods.lookup "DeepCopy" = some m →
      DeepCopyableInterfaces univ t = .ok (intfs, np) →
      GenerateType bd univ allTypes t = .ok rs →
      Routine.deepCopyAlloc ∉ rs ∧
      Routine.deepCopyInto
        (if m.receiverKind = .Pointer then .wrapperPtrReceiver
         else .wrapperValueReceiver) ∈ rs ∧
      (∀ snips, Routine.deepCopyInto (.generated snips) ∉ rs)) ∧
    (∀ bd univ allTypes (t : GoType) b m intfs np rs,
      needsGeneration allTypes t = .ok true →
      t.methods.lookup "DeepCopyInto" = some b →
      t.methods.lookup "DeepCopy" = some m →
      DeepCopyableInterfaces univ t = .ok (intfs, np) →
      GenerateType bd univ allTypes t = .ok rs →
      (∀ ib, Routine.deepCopyInto ib ∉ rs) ∧ Routine.deepCopyAlloc ∉ rs) ∧
    (∀ bd univ allTypes (t : GoType) b intfs np rs,
      needsGeneration allTypes t = .ok true →
      t.methods.lookup "DeepCopyInto" = some b →
      t.methods.lookup "DeepCopy" = none →
      DeepCopyableInterfaces univ t = .ok (intfs, np) →
      GenerateType bd univ allTypes t = .ok rs →
      (∀ ib, Routine.deepCopyInto ib ∉ rs) ∧ Routine.deepCopyAlloc ∈ rs) := by
  refine ⟨?_, ?_, ?_⟩
  · intro bd univ allTypes t m intfs np rs hng hin hdc hi hg
    have hG : GenerateType bd univ allTypes t
        = .ok ([Routine.deepCopyInto
                 (if m.receiverKind = .Pointer then .wrapperPtrReceiver
                  else .wrapperValueReceiver)]
               ++ intfs.map (fun n => Routine.adapter n np)) := by
      by_cases hrk : m.receiverKind = .Pointer <;>
        simp [GenerateType, hng, hin, hdc, hi, hrk]
    rw [hG] at hg
    cases hg
    refine ⟨?_, ?_, ?_⟩
    · simp
    · simp
    · intro snips
      by_cases hrk : m.receiverKind = .Pointer <;> simp [hrk]
  · intro bd univ allTypes t b m intfs np rs hng hin hdc hi hg
    have hG : GenerateType bd univ allTypes t
        = .ok (intfs.map (fun n => Routine.adapter n np)) := by
      simp [GenerateType, hng, hin, hdc, hi]
    rw [hG] at hg
    cases hg
    constructor
    · intro ib
      simp
    · simp
  · intro bd univ allTypes t b intfs np rs hng hin hdc hi hg
    have hG : GenerateType bd univ allTypes t
        = .ok ([Routine.deepCopyAlloc]
               ++ intfs.map (fun n => Routine.adapter n np)) := by
      simp [GenerateType, hng, hin, hdc, hi]
    rw [hG] at hg
    cases hg
    constructor
    · intro ib
      simp
    · simp

/-- A struct with a user-supplied value-receiver `DeepCopy` of the matching
signature and no `DeepCopyInto`. -/
def tWithDeepCopy : GoType :=
  .mk .Struct ⟨"p", "U"⟩ [("X", tString)] none none none
    [("DeepCopy", { receiverKind := .Struct, parameters := [], results := [⟨"p", "U"⟩] })]
    ["+k8s:deepcopy-gen=true"] []

/-- A struct with only a user-supplied `DeepCopyInto`. -/
def tWithDeepCopyInto : GoType :=
  .mk .Struct ⟨"p", "V"⟩ [("X", tString)] none none none
    [("DeepCopyInto", { receiverKind := .Pointer, parameters := [⟨"p", "V"⟩], results := [] })]
    ["+k8s:deepcopy-gen=true"] []

/-- Witness for claim C2: on `tWithDeepCopy` (matching allocating-copy
signature, so `hasDeepCopyMethod` holds) no allocating routine and a
value-receiver wrapper; on `tWithDeepCopyInto` no in-place routine but the
allocating routine. -/
theorem claim_C2_witness :
    hasDeepCopyMethod tWithDeepCopy = true ∧
    (Routine.deepCopyAlloc ∉
        [Routine.deepCopyInto .wrapperValueReceiver] ∧
      Routine.deepCopyInto .wrapperValueReceiver ∈
        [Routine.deepCopyInto .wrapperValueReceiver] ∧
      (∀ snips, Routine.deepCopyInto (.generated snips) ∉
        [Routine.deepCopyInto .wrapperValueReceiver])) ∧
    ((∀ ib, Routine.deepCopyInto ib ∉ [Routine.deepCopyAlloc]) ∧
      Routine.deepCopyAlloc ∈ [Routine.deepCopyAlloc]) := by
  refine ⟨by decide, ?_, ?_⟩
  · have h := claim_C2.1 [] [] false tWithDeepCopy
      { receiverKind := .Struct, parameters := [], results := [⟨"p", "U"⟩] } [] false
      [Routine.deepCopyInto .wrapperValueReceiver] rfl rfl rfl rfl
    have hg : GenerateType [] [] false tWithDeepCopy
        = .ok [Routine.deepCopyInto .wrapperValueReceiver] := rfl
    simpa using h hg
  · have h := claim_C2.2.2 [] [] false tWithDeepCopyInto
      { receiverKind := .Pointer, parameters := [⟨"p", "V"⟩], results := [] } [] false
      [Routine.deepCopyAlloc] rfl rfl rfl rfl
    have hg : GenerateType [] [] false tWithDeepCopyInto
        = .ok [Routine.deepCopyAlloc] := rfl
    simpa using h hg

/-! ## Claim C5 — cycle breaking: nested structs and struct pointees are a
single call, so synthesis of self-referential type graphs terminates

`generateFor` and its handlers are total Lean functions (accepted by
well-founded recursion on the type tree), and the two theorems below show
the emitted code for a non-assignable nested struct member and for a struct
pointee without override is a single `DeepCopyInto` call whose shape depends
only on the nested type's *name* — the nested type's members never appear,
so the dispatch never inlines beyond the first level. -/

/-- A dangling pointer node standing for the back-reference `*Node`; the
generator never dereferences it. -/
def tPtrNodeStub : GoType := .mk .Pointer ⟨"", ""⟩ [] none none none [] [] []

/-- The struct `p.Node` as seen one level deep. -/
def tNodeInner : GoType :=
  .mk .Struct ⟨"p", "Node"⟩ [("Next", tPtrNodeStub)] none none none [] [] []

/-- The pointer type `*p.Node`. -/
def tPtrNode : GoType := .mk .Pointer ⟨"", ""⟩ [] (some tNodeInner) none none [] [] []

/-- The self-referential struct `p.Node { Next *p.Node }`, with the cycle cut
one level deep (the generator never looks further). -/
def tNode : GoType :=
  .mk .Struct ⟨"p", "Node"⟩ [("Next", tPtrNode)] none none none [] [] []

/-- Claim C5: a non-trivially-assignable nested struct member compiles to
exactly one call of the nested type's own in-place routine; a pointer whose
struct pointee has no override likewise compiles to a single allocate-and-call
template; both outputs mention only the nested type's name, never its
members.  On the self-referential `Node{Next *Node}` fixture, synthesis
succeeds with the expected single-call template. -/
theorem claim_C5 :
    (∀ bd mname (t : GoType), t.kind = .Struct → hasDeepCopyMethod t = false →
      IsAssignable t = false →
      doStructMember bd mname t = .ok [.memberFix mname (.structInto t.name)]) ∧
    (∀ bd (t e : GoType), t.elem = some e → e.kind = .Struct →
      hasDeepCopyMethod e = false → IsAssignable e = false →
      doPointer bd t = .ok [.ptrNilCheck (.newInto e.name)]) ∧
    generateFor [] tNode
      = .ok [.assignDeref,
             .memberFix "Next" (.refRecurse [.ptrNilCheck (.newInto ⟨"p", "Node"⟩)])] := by
  refine ⟨?_, ?_, ?_⟩
  · intro bd mname t hk hm ha
    simp [doStructMember, hk, hm, doStructMemberSwitch, ha]
  · intro bd t e he hk hm ha
    rw [doPointer]
    split
    · next heq =>
        rw [he] at heq
        exact absurd heq (by simp)
    · next e2 heq =>
        rw [he] at heq
        injection heq with h2
        subst h2
        simp [hm, ha, hk]
  · simp [generateFor, tNode, tNodeInner, tPtrNode, tPtrNodeStub, doStruct,
      doStructMembers, doStructMember, doStructMemberSwitch, doPointer,
      hasDeepCopyMethod, IsAssignable, allMembersAssignable, GoType.kind,
      GoType.members, GoType.methods, GoType.name, GoType.elem, GoType.underlying]

/-- Witness for claim C5 at the `Node` fixture: the nested-struct-member rule
and the struct-pointee rule instantiated concretely. -/
theorem claim_C5_witness :
    doStructMember [] "Inner" tNodeInner
      = .ok [.memberFix "Inner" (.structInto ⟨"p", "Node"⟩)] ∧
    doPointer [] tPtrNode = .ok [.ptrNilCheck (.newInto ⟨"p", "Node"⟩)] := by
  constructor
  · have h := claim_C5.1 [] "Inner" tNodeInner rfl rfl
      (by simp [IsAssignable, tNodeInner, GoType.kind, GoType.members,
        allMembersAssignable, tPtrNodeStub])
    simpa [tNodeInner, GoType.name] using h
  · have h := claim_C5.2.1 [] tPtrNode tNodeInner rfl rfl rfl
      (by simp [IsAssignable, tNodeInner, GoType.kind, GoType.members,
        allMembersAssignable, tPtrNodeStub])
    simpa [tNodeInner, GoType.name] using h

/-! ## Claim C9 — unsupported map keys: a visible stub, no abort -/

theorem doMap_badKey {bd : List String} {t k : GoType}
    (hk : t.key = some k) (ha : IsAssignable k = false) :
    doMap bd t = .ok [.makeLen .Map (elemKindD t) t.name, .mapKeyUnsupported k.name] := by
  simp [doMap, hk, ha]

/-- Claim C9: a map whose key type is not trivially assignable compiles to
the `make` statement followed by the explicit `FIXME`-marked loop stub; the
emission never fails for that reason, the surrounding struct continues to
process its remaining members unchanged, and the stub's semantics copies
nothing and calls nothing. -/
theorem claim_C9 :
    (∀ bd (t k : GoType), t.key = some k → IsAssignable k = false →
      doMap bd t
        = .ok [.makeLen .Map (elemKindD t) t.name, .mapKeyUnsupported k.name]) ∧
    (∀ bd mname (t k : GoType) rest restSnips,
      t.kind = .Map → t.key = some k → IsAssignable k = false →
      hasDeepCopyMethod t = false →
      doStructMembers bd rest = .ok restSnips →
      doStructMembers bd ((mname, t) :: rest)
        = .ok (.memberFix mname (.refRecurse
            [.makeLen .Map (elemKindD t) t.name, .mapKeyUnsupported k.name])
            :: restSnips)) ∧
    (∀ o inV outV kn, evalSnip o (.mapKeyUnsupported kn) inV outV = .ok (outV, [])) := by
  refine ⟨?_, ?_, ?_⟩
  · intro bd t k hk ha
    exact doMap_badKey hk ha
  · intro bd mname t k rest restSnips hkind hk ha hm hrest
    have hgen : generateFor bd t
        = .ok [.makeLen .Map (elemKindD t) t.name, .mapKeyUnsupported k.name] := by
      rw [generateFor]
      rw [hkind]
      exact doMap_badKey hk ha
    have hmem : doStructMember bd mname t
        = .ok [.memberFix mname (.refRecurse
            [.makeLen .Map (elemKindD t) t.name, .mapKeyUnsupported k.name])] := by
      simp [doStructMember, hkind, hm, doStructMemberSwitch, hgen]
    rw [doStructMembers, hmem, hrest]
    rfl
  · intro o inV outV kn
    simp [evalSnip]

/-- The anonymous map type `map[[]p.T]string`, whose key type (a slice) is
not trivially assignable. -/
def tMapBadKey : GoType :=
  .mk .Map ⟨"", ""⟩ [] (some tString) (some tSliceT) none [] [] []

/-- A struct with the bad-key map field followed by an ordinary builtin
field. -/
def tWithBadKeyMap : GoType :=
  .mk .Struct ⟨"p", "W"⟩ [("M", tMapBadKey), ("Y", tString)] none none none [] [] []

/-- Witness for claim C9: the stub for the concrete bad-key map, the struct
that keeps processing its second member, and the stub's no-op semantics. -/
theorem claim_C9_witness :
    doMap [] tMapBadKey
      = .ok [.makeLen .Map .Builtin ⟨"", ""⟩, .mapKeyUnsupported ⟨"", ""⟩] ∧
    doStructMembers [] [("M", tMapBadKey), ("Y", tString)]
      = .ok [.memberFix "M" (.refRecurse
          [.makeLen .Map .Builtin ⟨"", ""⟩, .mapKeyUnsupported ⟨"", ""⟩])] ∧
    evalSnip demoOracle (.mapKeyUnsupported ⟨"", ""⟩) (.vmap none) (.vmap (some []))
      = .ok (.vmap (some []), []) := by
  refine ⟨?_, ?_, ?_⟩
  · have h := claim_C9.1 [] tMapBadKey tSliceT rfl
      (by simp [IsAssignable, tSliceT, GoType.kind])
    simpa [tMapBadKey, elemKindD, GoType.elem, GoType.name, tString, GoType.kind] using h
  · have h := claim_C9.2.1 [] "M" tMapBadKey tSliceT [("Y", tString)] [] rfl rfl
      (by simp [IsAssignable, tSliceT, GoType.kind])
      (by decide)
      (by simp [doStructMembers, doStructMember, doStructMemberSwitch, tString,
        GoType.kind, GoType.underlying, hasDeepCopyMethod, GoType.methods])
    simpa [tMapBadKey, elemKindD, GoType.elem, GoType.name, tString, GoType.kind] using h
  · exact claim_C9.2.2 demoOracle (.vmap none) (.vmap (some [])) ⟨"", ""⟩

/-! ## Claim C8 — interface adapter semantics -/

/-- Claim C8: the pointer-receiver adapter translates a nil allocating-copy
result into a nil interface result and can never return a non-nil interface
wrapping a nil concrete pointer; the non-pointer-receiver adapter returns the
dereferenced allocating-copy result; and `GenerateType` emits one adapter per
declared interface with the requested receiver flavour. -/
theorem claim_C8 :
    (∀ (dc : Option Value → Option Value) recv, dc recv = none →
      evalAdapterPtrRecv dc recv = .nilInterface) ∧
    (∀ (dc : Option Value → Option Value) recv,
      evalAdapterPtrRecv dc recv ≠ .wrapsPointer none) ∧
    (∀ (dc : Option Value → Option Value) recv c, dc recv = some c →
      evalAdapterPtrRecv dc recv = .wrapsPointer (some c)) ∧
    (∀ (dc : Option Value → Option Value) recv c, dc (some recv) = some c →
      evalAdapterValueRecv dc recv = .ok (.wrapsValue c)) ∧
    (∀ bd univ allTypes (t : GoType) rs intfs np,
      needsGeneration allTypes t = .ok true →
      DeepCopyableInterfaces univ t = .ok (intfs, np) →
      GenerateType bd univ allTypes t = .ok rs →
      ∀ n ∈ intfs, Routine.adapter n np ∈ rs) := by
  refine ⟨?_, ?_, ?_, ?_, ?_⟩
  · intro dc recv h
    simp [evalAdapterPtrRecv, h]
  · intro dc recv
    unfold evalAdapterPtrRecv
    cases h : dc recv <;> simp
  · intro dc recv c h
    simp [evalAdapterPtrRecv, h]
  · intro dc recv c h
    simp [evalAdapterValueRecv, h]
  · intro bd univ allTypes t rs intfs np hng hdci hg n hn
    cases hin : t.methods.lookup "DeepCopyInto" with
    | some b =>
        cases hdc : t.methods.lookup "DeepCopy" with
        | some m =>
            simp [GenerateType, hng, hin, hdc, hdci] at hg
            subst hg
            simpa using hn
        | none =>
            simp [GenerateType, hng, hin, hdc, hdci] at hg
            subst hg
            simpa using hn
    | none =>
        cases hdc : t.methods.lookup "DeepCopy" with
        | some m =>
            by_cases hrk : m.receiverKind = .Pointer <;>
              simp [GenerateType, hng, hin, hdc, hdci, hrk] at hg <;>
              subst hg <;> simpa using hn
        | none =>
            cases hgen : generateFor bd t with
            | ok snips =>
                simp [GenerateType, hng, hin, hdc, hdci, hgen] at hg
                subst hg
                simpa using hn
            | error e =>
                simp [GenerateType, hng, hin, hdc, hdci, hgen] at hg

/-- A struct declaring one interface through copy semantics. -/
def tShape : GoType :=
  .mk .Struct ⟨"p", "Shape"⟩ [("X", tString)] none none none []
    ["+k8s:deepcopy-gen=true", "+k8s:deepcopy-gen:interfaces=q.Cloneable"] []

/-- The universe resolving `q.Cloneable` as an interface. -/
def univCloneable : List (Name × Kind) := [(⟨"q", "Cloneable"⟩, .Interface)]

/-- Witness for claim C8: the adapter templates at concrete inputs, and the
adapter emitted for the concrete `Shape` type tagged with `q.Cloneable`. -/
theorem claim_C8_witness :
    evalAdapterPtrRecv (fun _ => none) none = .nilInterface ∧
    evalAdapterPtrRecv (fun _ => some (.prim "x")) none ≠ .wrapsPointer none ∧
    evalAdapterPtrRecv (fun _ => some (.prim "x")) none
      = .wrapsPointer (some (.prim "x")) ∧
    evalAdapterValueRecv (fun _ => some (.prim "y")) (.prim "z")
      = .ok (.wrapsValue (.prim "y")) ∧
    Routine.adapter ⟨"q", "Cloneable"⟩ false ∈
      [Routine.deepCopyInto (.generated [.assignDeref]), Routine.deepCopyAlloc,
       Routine.adapter ⟨"q", "Cloneable"⟩ false] := by
  refine ⟨?_, ?_, ?_, ?_, ?_⟩
  · exact claim_C8.1 (fun _ => none) none rfl
  · exact claim_C8.2.1 (fun _ => some (.prim "x")) none
  · exact claim_C8.2.2.1 (fun _ => some (.prim "x")) none (.prim "x") rfl
  · exact claim_C8.2.2.2.1 (fun _ => some (.prim "y")) (.prim "z") (.prim "y") rfl
  · have hdci : DeepCopyableInterfaces univCloneable tShape
        = .ok ([⟨"q", "Cloneable"⟩], false) := rfl
    have hg : GenerateType [] univCloneable false tShape
        = .ok [Routine.deepCopyInto (.generated [.assignDeref]), Routine.deepCopyAlloc,
               Routine.adapter ⟨"q", "Cloneable"⟩ false] := by
      have hgen : generateFor [] tShape = .ok [.assignDeref] := by
        simp [generateFor, tShape, GoType.kind, doStruct, hasDeepCopyMethod,
          GoType.methods, doStructMembers, doStructMember, doStructMemberSwitch,
          tString, GoType.members, GoType.underlying]
      have hng : needsGeneration false tShape = .ok true := rfl
      have hms : tShape.methods = [] := rfl
      simp [GenerateType, hng, hms, hgen, hdci]
    exact claim_C8.2.2.2.2 [] univCloneable false tShape _ [⟨"q", "Cloneable"⟩] false
      rfl hdci hg ⟨"q", "Cloneable"⟩ (by simp)

/-! ## Claim C7 — deduplicated, deterministically sorted interface lists -/

theorem char_toNat_inj {a b : Char} (h : a.toNat = b.toNat) : a = b := by
  apply Char.eq_of_val_eq
  apply UInt32.eq_of_val_eq
  exact Fin.ext h

theorem charListLe_total : ∀ a b : List Char,
    charListLe a b = true ∨ charListLe b a = true := by
  intro a
  induction a with
  | nil => intro b; left; rfl
  | cons x xs ih =>
    intro b
    cases b with
    | nil => right; rfl
    | cons y ys =>
      by_cases h1 : x.toNat < y.toNat
      · left; simp [charListLe, h1]
      · by_cases h2 : y.toNat < x.toNat
        · right; simp [charListLe, h2]
        · rcases ih ys with h | h
          · left; simp [charListLe, h1, h2, h]
          · right; simp [charListLe, h1, h2, h]

theorem charListLe_cons_inv {x y : Char} {xs ys : List Char}
    (h : charListLe (x :: xs) (y :: ys) = true) :
    x.toNat < y.toNat ∨ (x.toNat = y.toNat ∧ charListLe xs ys = true) := by
  by_cases h1 : x.toNat < y.toNat
  · exact Or.inl h1
  by_cases h2 : y.toNat < x.toNat
  · simp [charListLe, h1, h2] at h
  · exact Or.inr ⟨by omega, by simpa [charListLe, h1, h2] using h⟩

theorem charListLe_cons_of_lt {x y : Char} {xs ys : List Char}
    (h : x.toNat < y.toNat) : charListLe (x :: xs) (y :: ys) = true := by
  simp [charListLe, h]

theorem charListLe_cons_of_eq {x y : Char} {xs ys : List Char}
    (h : x.toNat = y.toNat) (ht : charListLe xs ys = true) :
    charListLe (x :: xs) (y :: ys) = true := by
  simp [charListLe, show ¬ x.toNat < y.toNat by omega,
    show ¬ y.toNat < x.toNat by omega, ht]

theorem charListLe_trans : ∀ a b c : List Char,
    charListLe a b = true → charListLe b c = true → charListLe a c = true := by
  intro a
  induction a with
  | nil => intro b c _ _; rfl
  | cons x xs ih =>
    intro b c hab hbc
    cases b with
    | nil => simp [charListLe] at hab
    | cons y ys =>
      cases c with
      | nil => simp [charListLe] at hbc
      | cons z zs =>
        rcases charListLe_cons_inv hab with h1 | ⟨h1, hab'⟩ <;>
          rcases charListLe_cons_inv hbc with h2 | ⟨h2, hbc'⟩
        · exact charListLe_cons_of_lt (by omega)
        · exact charListLe_cons_of_lt (by omega)
        · exact charListLe_cons_of_lt (by omega)
        · exact charListLe_cons_of_eq (by omega) (ih ys zs hab' hbc')

theorem charListLe_antisymm : ∀ a b : List Char,
    charListLe a b = true → charListLe b a = true → a = b := by
  intro a
  induction a with
  | nil =>
    intro b _ hba
    cases b with
    | nil => rfl
    | cons y ys => simp [charListLe] at hba
  | cons x xs ih =>
    intro b hab hba
    cases b with
    | nil => simp [charListLe] at hab
    | cons y ys =>
      rcases charListLe_cons_inv hab with h1 | ⟨h1, hab'⟩ <;>
        rcases charListLe_cons_inv hba with h2 | ⟨h2, hba'⟩
      · omega
      · omega
      · omega
      · have hx : x = y := char_toNat_inj h1
        subst hx
        rw [ih ys hab' hba']

theorem strLe_antisymm {a b : String} (hab : strLe a b = true)
    (hba : strLe b a = true) : a = b := by
  cases a with
  | mk la =>
    cases b with
    | mk lb =>
      have : la = lb := charListLe_antisymm la lb hab hba
      rw [this]

instance : IsTotal Name nameLe :=
  ⟨fun a b => charListLe_total a.qualified.data b.qualified.data⟩

instance : IsTrans Name nameLe :=
  ⟨fun a b c hab hbc =>
    charListLe_trans a.qualified.data b.qualified.data c.qualified.data hab hbc⟩

theorem nameLe_antisymm_qualified {a b : Name} (hab : nameLe a b)
    (hba : nameLe b a) : a.qualified = b.qualified :=
  strLe_antisymm hab hba

/-- Two sorted lists of names with duplicate-free qualified names and the
same members are equal: the emitted order is a function of the member set. -/
theorem sorted_nodup_ext : ∀ l1 l2 : List Name,
    List.Sorted nameLe l1 → List.Sorted nameLe l2 →
    (l1.map Name.qualified).Nodup → (l2.map Name.qualified).Nodup →
    (∀ x, x ∈ l1 ↔ x ∈ l2) → l1 = l2 := by
  intro l1
  induction l1 with
  | nil =>
    intro l2 _ _ _ _ hmem
    cases l2 with
    | nil => rfl
    | cons b t => exact absurd ((hmem b).2 (by simp)) (by simp)
  | cons a l1' ih =>
    intro l2 hs1 hs2 hn1 hn2 hmem
    cases l2 with
    | nil => exact absurd ((hmem a).1 (by simp)) (by simp)
    | cons b l2' =>
      have hab : a = b := by
        rcases List.mem_cons.mp ((hmem a).1 (by simp)) with h | ha2
        · exact h
        rcases List.mem_cons.mp ((hmem b).2 (by simp)) with h | hb1
        · exact h.symm
        have h1 : nameLe a b := (List.sorted_cons.mp hs1).1 b hb1
        have h2 : nameLe b a := (List.sorted_cons.mp hs2).1 a ha2
        have hq : a.qualified = b.qualified := nameLe_antisymm_qualified h1 h2
        exfalso
        have : a.qualified ∈ l2'.map Name.qualified := List.mem_map_of_mem _ ha2
        rw [hq] at this
        exact (List.nodup_cons.mp (by simpa using hn2)).1 this
      subst hab
      have htails : ∀ x, x ∈ l1' ↔ x ∈ l2' := by
        intro x
        constructor
        · intro hx
          rcases List.mem_cons.mp ((hmem x).1 (List.mem_cons_of_mem _ hx)) with h | h
          · exfalso
            subst h
            exact (List.nodup_cons.mp (by simpa using hn1)).1
              (List.mem_map_of_mem _ hx)
          · exact h
        · intro hx
          rcases List.mem_cons.mp ((hmem x).2 (List.mem_cons_of_mem _ hx)) with h | h
          · exfalso
            subst h
            exact (List.nodup_cons.mp (by simpa using hn2)).1
              (List.mem_map_of_mem _ hx)
          · exact h
      rw [ih l2' (List.sorted_cons.mp hs1).2 (List.sorted_cons.mp hs2).2
        (by simpa using List.Nodup.of_cons hn1)
        (by simpa using List.Nodup.of_cons hn2) htails]

theorem insertKeyed_keys : ∀ (acc : List (String × Name)) (k : String) (n : Name),
    (insertKeyed acc k n).map Prod.fst =
      if k ∈ acc.map Prod.fst then acc.map Prod.fst else acc.map Prod.fst ++ [k] := by
  intro acc
  induction acc with
  | nil => intro k n; simp [insertKeyed]
  | cons p rest ih =>
    intro k n
    obtain ⟨k0, n0⟩ := p
    by_cases h : k0 = k
    · subst h
      simp [insertKeyed]
    · simp only [insertKeyed, if_neg (by exact h)]
      rw [List.map_cons, List.map_cons, ih k n]
      by_cases hm : k ∈ rest.map Prod.fst
      · simp [hm, Ne.symm h]
      · simp [hm, Ne.symm h]

theorem insertKeyed_mem_src : ∀ (acc : List (String × Name)) (k : String) (n : Name)
    (p : String × Name), p ∈ insertKeyed acc k n → p ∈ acc ∨ p = (k, n) := by
  intro acc
  induction acc with
  | nil => intro k n p hp; simp [insertKeyed] at hp; right; exact hp
  | cons q rest ih =>
    intro k n p hp
    obtain ⟨k0, n0⟩ := q
    by_cases h : k0 = k
    · subst h
      simp only [insertKeyed, if_pos rfl] at hp
      rcases List.mem_cons.mp hp with h | h
      · right; rw [h]
      · left; exact List.mem_cons_of_mem _ h
    · simp only [insertKeyed, if_neg (by exact h)] at hp
      rcases List.mem_cons.mp hp with hh | hh
      · left; rw [hh]; exact List.mem_cons_self _ _
      · rcases ih k n p hh with h2 | h2
        · left; exact List.mem_cons_of_mem _ h2
        · right; exact h2

/-- The dedup accumulator invariant: duplicate-free keys, every entry pairs a
name with its own qualified key and stems from the accumulator or the input,
the key of every input name is present, and the keys only grow. -/
theorem dedup_aux : ∀ (l : List Name) (acc : List (String × Name)),
    (acc.map Prod.fst).Nodup →
    (∀ p ∈ acc, p.1 = p.2.qualified) →
    (((l.foldl (fun a n => insertKeyed a n.qualified n) acc).map Prod.fst).Nodup ∧
     (∀ p ∈ l.foldl (fun a n => insertKeyed a n.qualified n) acc,
        p.1 = p.2.qualified ∧ (p ∈ acc ∨ p.2 ∈ l)) ∧
     (∀ n ∈ l, n.qualified ∈
        (l.foldl (fun a n => insertKeyed a n.qualified n) acc).map Prod.fst) ∧
     (∀ k ∈ acc.map Prod.fst, k ∈
        (l.foldl (fun a n => insertKeyed a n.qualified n) acc).map Prod.fst)) := by
  intro l
  induction l with
  | nil =>
    intro acc hnd hfst
    refine ⟨hnd, ?_, ?_, ?_⟩
    · intro p hp
      exact ⟨hfst p hp, Or.inl hp⟩
    · intro n hn
      simp at hn
    · intro k hk
      exact hk
  | cons n ns ih =>
    intro acc hnd hfst
    have hnd' : ((insertKeyed acc n.qualified n).map Prod.fst).Nodup := by
      rw [insertKeyed_keys]
      by_cases hm : n.qualified ∈ acc.map Prod.fst
      · simpa [hm] using hnd
      · simp only [if_neg hm]
        simp [List.nodup_append, hnd, hm]
    have hfst' : ∀ p ∈ insertKeyed acc n.qualified n, p.1 = p.2.qualified := by
      intro p hp
      rcases insertKeyed_mem_src acc n.qualified n p hp with h | h
      · exact hfst p h
      · rw [h]
    obtain ⟨h1, h2, h3, h4⟩ := ih (insertKeyed acc n.qualified n) hnd' hfst'
    refine ⟨h1, ?_, ?_, ?_⟩
    · intro p hp
      obtain ⟨hq, hsrc⟩ := h2 p hp
      refine ⟨hq, ?_⟩
      rcases hsrc with h | h
      · rcases insertKeyed_mem_src acc n.qualified n p h with hh | hh
        · exact Or.inl hh
        · right; rw [hh]; simp
      · right; exact List.mem_cons_of_mem _ h
    · intro m hm
      rcases List.mem_cons.mp hm with h | h
      · subst h
        apply h4
        rw [insertKeyed_keys]
        by_cases hmem : m.qualified ∈ acc.map Prod.fst
        · simpa [hmem] using hmem
        · simp [hmem]
      · exact h3 m h
    · intro k hk
      apply h4
      rw [insertKeyed_keys]
      by_cases hmem : n.qualified ∈ acc.map Prod.fst
      · simpa [hmem] using hk
      · simp [hmem, hk]

/-- Claim C7: for every candidate type, the interface list handed to adapter
emission is sorted by qualified name, has duplicate-free qualified names, and
— when distinct declared interfaces have distinct qualified names — contains
exactly the declared interfaces and is a deterministic function of their set:
any declaration list with the same members (any order, any repetition)
produces the identical emission list. -/
theorem claim_C7 :
    ∀ univ (t : GoType) res np raw,
      DeepCopyableInterfaces univ t = .ok (res, np) →
      deepCopyableInterfaces univ t = .ok raw →
      List.Sorted nameLe res ∧
      (res.map Name.qualified).Nodup ∧
      ((∀ a b, a ∈ raw → b ∈ raw → a.qualified = b.qualified → a = b) →
        (∀ x, x ∈ res ↔ x ∈ raw)) ∧
      (∀ raw2,
        (∀ a b, a ∈ raw → b ∈ raw → a.qualified = b.qualified → a = b) →
        (∀ a b, a ∈ raw2 → b ∈ raw2 → a.qualified = b.qualified → a = b) →
        (∀ x, x ∈ raw2 ↔ x ∈ raw) →
        typeSliceSort ((dedupByQualified raw2).map (fun p => p.2)) = res) := by
  intro univ t res np raw hdci hraw
  have hres : res = typeSliceSort ((dedupByQualified raw).map (fun p => p.2)) := by
    rw [DeepCopyableInterfaces, hraw] at hdci
    cases henpi : extractNonPointerInterfaces
        (t.secondClosestCommentLines ++ t.commentLines) with
    | ok b =>
        rw [henpi] at hdci
        simp at hdci
        exact hdci.1.symm
    | error e =>
        rw [henpi] at hdci
        simp at hdci
  -- facts about the dedup of an arbitrary name list
  have key_facts : ∀ ts : List Name,
      (((dedupByQualified ts).map (fun p => p.2)).map Name.qualified).Nodup ∧
      (∀ x ∈ (dedupByQualified ts).map (fun p => p.2), x ∈ ts) ∧
      ((∀ a b, a ∈ ts → b ∈ ts → a.qualified = b.qualified → a = b) →
        ∀ x ∈ ts, x ∈ (dedupByQualified ts).map (fun p => p.2)) := by
    intro ts
    obtain ⟨h1, h2, h3, _⟩ := dedup_aux ts [] (by simp) (by simp)
    have hkeys : ((dedupByQualified ts).map (fun p => p.2)).map Name.qualified
        = (dedupByQualified ts).map Prod.fst := by
      rw [List.map_map]
      apply List.map_congr_left
      intro p hp
      exact ((h2 p hp).1).symm
    refine ⟨by rw [hkeys]; exact h1, ?_, ?_⟩
    · intro x hx
      rcases List.mem_map.mp hx with ⟨p, hp, hpx⟩
      rcases (h2 p hp).2 with h | h
      · simp at h
      · rw [← hpx]; exact h
    · intro hinj x hx
      have hk := h3 x hx
      rcases List.mem_map.mp hk with ⟨p, hp, hpk⟩
      have hpq := (h2 p hp).1
      have hpsrc := (h2 p hp).2
      rcases hpsrc with h | h
      · simp at h
      · have : p.2 = x := by
          apply hinj p.2 x h hx
          rw [← hpq, hpk]
        rw [← this]
        exact List.mem_map_of_mem _ hp
  have sorted_res : List.Sorted nameLe res := by
    rw [hres]
    exact List.sorted_insertionSort nameLe _
  have perm_res : ∀ ts : List Name,
      (typeSliceSort ((dedupByQualified ts).map (fun p => p.2))).Perm
        ((dedupByQualified ts).map (fun p => p.2)) :=
    fun ts => List.perm_insertionSort nameLe _
  have nodup_res : (res.map Name.qualified).Nodup := by
    rw [hres]
    exact ((List.Perm.map Name.qualified (perm_res raw)).nodup_iff).mpr
      (key_facts raw).1
  refine ⟨sorted_res, nodup_res, ?_, ?_⟩
  · intro hinj x
    constructor
    · intro hx
      rw [hres] at hx
      exact (key_facts raw).2.1 x ((perm_res raw).mem_iff.mp hx)
    · intro hx
      rw [hres]
      exact (perm_res raw).mem_iff.mpr ((key_facts raw).2.2 hinj x hx)
  · intro raw2 hinj hinj2 hmem
    apply sorted_nodup_ext
    · exact List.sorted_insertionSort nameLe _
    · exact sorted_res
    · exact ((List.Perm.map Name.qualified (perm_res raw2)).nodup_iff).mpr
        (key_facts raw2).1
    · exact nodup_res
    · intro x
      constructor
      · intro hx
        have hx2 : x ∈ raw2 :=
          (key_facts raw2).2.1 x ((perm_res raw2).mem_iff.mp hx)
        have hxr : x ∈ raw := (hmem x).1 hx2
        rw [hres]
        exact (perm_res raw).mem_iff.mpr ((key_facts raw).2.2 hinj x hxr)
      · intro hx
        rw [hres] at hx
        have hxr : x ∈ raw := (key_facts raw).2.1 x ((perm_res raw).mem_iff.mp hx)
        have hx2 : x ∈ raw2 := (hmem x).2 hxr
        exact (perm_res raw2).mem_iff.mpr ((key_facts raw2).2.2 hinj2 x hx2)

/-- A struct declaring `q.B`, `q.A` and `q.B` again, in that order. -/
def tTwoIntfs : GoType :=
  .mk .Struct ⟨"p", "Two"⟩ [("X", tString)] none none none []
    ["+k8s:deepcopy-gen:interfaces=q.B,q.A", "+k8s:deepcopy-gen:interfaces=q.B"] []

/-- The universe resolving `q.A` and `q.B` as interfaces. -/
def univAB : List (Name × Kind) :=
  [(⟨"q", "A"⟩, .Interface), (⟨"q", "B"⟩, .Interface)]

/-- Witness for claim C7: the scrambled, duplicated declaration list
`[q.B, q.A, q.B]` is emitted as the sorted duplicate-free `[q.A, q.B]`, and
the reordered declaration list `[q.A, q.B]` produces the identical output. -/
theorem claim_C7_witness :
    DeepCopyableInterfaces univAB tTwoIntfs
      = .ok ([⟨"q", "A"⟩, ⟨"q", "B"⟩], false) ∧
    List.Sorted nameLe [⟨"q", "A"⟩, ⟨"q", "B"⟩] ∧
    typeSliceSort ((dedupByQualified [⟨"q", "A"⟩, ⟨"q", "B"⟩]).map (fun p => p.2))
      = [⟨"q", "A"⟩, ⟨"q", "B"⟩] := by
  have hdci : DeepCopyableInterfaces univAB tTwoIntfs
      = .ok ([⟨"q", "A"⟩, ⟨"q", "B"⟩], false) := rfl
  have hraw : deepCopyableInterfaces univAB tTwoIntfs
      = .ok [⟨"q", "B"⟩, ⟨"q", "A"⟩, ⟨"q", "B"⟩] := rfl
  have h := claim_C7 univAB tTwoIntfs [⟨"q", "A"⟩, ⟨"q", "B"⟩] false
    [⟨"q", "B"⟩, ⟨"q", "A"⟩, ⟨"q", "B"⟩] hdci hraw
  refine ⟨hdci, h.1, ?_⟩
  apply h.2.2.2 [⟨"q", "A"⟩, ⟨"q", "B"⟩]
  · intro a b ha hb hq
    simp at ha hb
    rcases ha with rfl | rfl | rfl <;> rcases hb with rfl | rfl | rfl <;>
      first
        | rfl
        | (exact absurd hq (by decide))
  · intro a b ha hb hq
    simp at ha hb
    rcases ha with rfl | rfl <;> rcases hb with rfl | rfl <;>
      first
        | rfl
        | (exact absurd hq (by decide))
  · intro x
    simp
    tauto

/-! ## Claim C1 — nil propagation of the generated copy logic -/

/-- The code generated for `p.Cfg { M map[string][]p.T }`. -/
def cBadSnips : List Snip :=
  [.assignDeref,
   .memberFix "M" (.refRecurse
     [.makeLen .Map .Slice ⟨"", ""⟩, .mapLoop (.valDerefDeepCopy ⟨"", ""⟩)])]

/-- Claim C1 as frozen is falsified at a nested map-value position: for the
struct `Cfg { M map[string][]p.T }` (a map value of slice shape with
non-builtin elements), the emitted per-entry statement is an unguarded
`(*out)[key] = *val.DeepCopy()`, so evaluating the generated copy on a source
whose map holds a nil slice value invokes a deeper `DeepCopy` call on the nil
value and stores its (non-nil) result — the destination value is an empty
slice, not nil. -/
theorem claim_C1_counterexample :
    generateFor [] tCfg = .ok cBadSnips ∧
    evalSnips demoOracle cBadSnips
        (.struct [("M", .vmap (some [("k", .slice none)]))]) (zeroOfKind .Struct)
      = .ok (.struct [("M", .vmap (some [("k", .slice (some []))]))],
             [⟨"DeepCopy", ⟨"", ""⟩, .slice none⟩]) ∧
    Value.slice (some []) ≠ Value.slice none := by
  refine ⟨?_, ?_, ?_⟩
  · simp [generateFor, tCfg, GoType.kind, doStruct, hasDeepCopyMethod, GoType.methods,
      doStructMembers, doStructMember, doStructMemberSwitch, tMapSliceT, GoType.members,
      GoType.underlying, doMap, GoType.key, GoType.elem, IsAssignable, tString,
      IsAnonymousStruct, tSliceT, GoType.name, copyableAndInBounds, copyableType,
      extractTag, extractCommentTagValues, GoType.commentLines, tagValueIs,
      elemKindD, elemNameD, underlyingKindD, tT, cBadSnips, isRootedUnder]
  · simp [cBadSnips, evalSnips, evalSnip, evalMemberFix, evalMapEntries, evalMapEntry,
      demoOracle, isNilValue, setAssoc, zeroOfKind, List.lookup]
  · simp

theorem hasDeepCopyMethod_noMethods {k : Kind} {nm : Name}
    {ms : List (String × GoType)} {el ky un : Option GoType} {cs scs : List String} :
    hasDeepCopyMethod (.mk k nm ms el ky un [] cs scs) = false := by
  simp [hasDeepCopyMethod, GoType.methods, List.lookup]

theorem copyableType_not_struct {t : GoType} {r : Option tagValue}
    (hk : t.kind ≠ .Struct) (he : extractTag t.commentLines = .ok r) :
    copyableType t = .ok false := by
  by_cases htv : tagValueIs r "false" = true <;> simp [copyableType, he, htv, hk]

theorem copyableAndInBounds_not_struct {bd : List String} {t : GoType}
    {r : Option tagValue} (hk : t.kind ≠ .Struct)
    (he : extractTag t.commentLines = .ok r) :
    copyableAndInBounds bd t = .ok false := by
  simp [copyableAndInBounds, copyableType_not_struct hk he]

theorem doSlice_sliceElem {bd : List String} {nm : Name} {cs scs : List String}
    {et : GoType} (hk : et.kind = .Slice) (hm : hasDeepCopyMethod et = false) :
    doSlice bd (.mk .Slice nm [] (some et) none none [] cs scs)
      = (generateFor bd et).bind (fun inner =>
          .ok [.makeLen .Slice .Slice nm,
               .sliceLoop (.elemNilCheckRecurse inner)]) := by
  rw [doSlice]
  simp [hasDeepCopyMethod_noMethods, GoType.elem, GoType.name, hm, hk, IsAssignable,
    elemKindD, Bind.bind]

theorem doSlice_ptrElem {bd : List String} {nm : Name} {cs scs : List String}
    {et : GoType} (hk : et.kind = .Pointer) (hm : hasDeepCopyMethod et = false) :
    doSlice bd (.mk .Slice nm [] (some et) none none [] cs scs)
      = .ok [.makeLen .Slice .Pointer nm,
             .sliceLoop (.elemPtrNilCheckNewInto (elemNameD et))] := by
  rw [doSlice]
  simp [hasDeepCopyMethod_noMethods, GoType.elem, GoType.name, hm, hk, IsAssignable,
    elemKindD]

theorem doMap_ptrVal {bd : List String} {nm : Name} {cs scs : List String}
    {et kt : GoType} {rt : Option tagValue}
    (hka : IsAssignable kt = true) (hk : et.kind = .Pointer)
    (hm : hasDeepCopyMethod et = false)
    (hrt : extractTag et.commentLines = .ok rt) :
    doMap bd (.mk .Map nm [] (some et) (some kt) none [] cs scs)
      = .ok [.makeLen .Map .Pointer nm,
             .mapLoop (.valPtrNilCheckNewInto (elemNameD et))] := by
  have hcb : copyableAndInBounds bd et = .ok false :=
    copyableAndInBounds_not_struct (by simp [hk]) hrt
  rw [doMap]
  simp [GoType.key, GoType.elem, GoType.name, hka, hm, hk, IsAssignable,
    IsAnonymousStruct, elemKindD, hcb]

theorem doMap_sliceBuiltinVal {bd : List String} {nm : Name} {cs scs : List String}
    {et kt : GoType} {rt : Option tagValue}
    (hka : IsAssignable kt = true) (hk : et.kind = .Slice)
    (hek : elemKindD et = .Builtin) (hm : hasDeepCopyMethod et = false)
    (hrt : extractTag et.commentLines = .ok rt) :
    doMap bd (.mk .Map nm [] (some et) (some kt) none [] cs scs)
      = .ok [.makeLen .Map .Slice nm,
             .mapLoop (.valNilCheckMakeCopy et.name)] := by
  have hcb : copyableAndInBounds bd et = .ok false :=
    copyableAndInBounds_not_struct (by simp [hk]) hrt
  have hekT : elemKindD (.mk .Map nm [] (some et) (some kt) none [] cs scs) = et.kind := by
    simp [elemKindD, GoType.elem]
  rw [doMap]
  simp [GoType.key, GoType.elem, GoType.name, hka, hm, hk, hek, IsAssignable,
    IsAnonymousStruct, hcb, hekT]

theorem doPointer_refElem {bd : List String} {nm : Name} {cs scs : List String}
    {et : GoType} (hk : et.kind = .Map ∨ et.kind = .Slice)
    (hm : hasDeepCopyMethod et = false) :
    doPointer bd (.mk .Pointer nm [] (some et) none none [] cs scs)
      = (generateFor bd et).bind (fun inner =>
          .ok [.ptrNilCheck (.newNilCheckRecurse et.kind et.name inner)]) := by
  rw [doPointer]
  rcases hk with hk | hk <;>
    simp [GoType.elem, hm, hk, IsAssignable, Bind.bind]

/-- Claim C1 (amended): the generated allocating copy returns nil on a nil
receiver; the generated in-place copy leaves a nil pointer-, slice- or
map-kind struct field nil without calling anything (both with and without a
user override on the field type); nil-preservation also holds for slice
elements of slice and pointer shape, for map values of pointer shape and of
builtin-element slice shape, and for a nil map/slice pointee behind a non-nil
pointer.  (Per the counterexample it does not hold for map values of slice
shape with non-builtin elements.) -/
theorem claim_C1_amended :
    (∀ intoSem, evalDeepCopyAlloc intoSem none = .ok (none, [])) ∧
    (∀ bd nm (cs scs : List String) f (ft : GoType) snips
        (o : Oracle) (v : Value),
      (ft.kind = .Map ∨ ft.kind = .Slice ∨ ft.kind = .Pointer) →
      hasDeepCopyMethod ft = false →
      generateFor bd (.mk .Struct nm [(f, ft)] none none none [] cs scs) = .ok snips →
      isNilValue v = true →
      evalSnips o snips (.struct [(f, v)]) (zeroOfKind .Struct)
        = .ok (.struct [(f, v)], [])) ∧
    (∀ bd f (ft : GoType),
      (ft.kind = .Map ∨ ft.kind = .Slice ∨ ft.kind = .Pointer) →
      hasDeepCopyMethod ft = true →
      doStructMember bd f ft = .ok [.memberFix f (.refWithMethod ft.name)]) ∧
    (∀ (o : Oracle) (n : Name) (v ov : Value), isNilValue v = true →
      evalMemberFix o (.refWithMethod n) v ov = .ok (ov, [])) ∧
    (∀ bd nm (cs scs : List String) (et : GoType) snips (o : Oracle),
      (et.kind = .Slice ∨ et.kind = .Pointer) →
      hasDeepCopyMethod et = false →
      generateFor bd (.mk .Slice nm [] (some et) none none [] cs scs) = .ok snips →
      evalSnips o snips (.slice (some [zeroOfKind et.kind])) (zeroOfKind .Slice)
        = .ok (.slice (some [zeroOfKind et.kind]), [])) ∧
    (∀ bd nm (cs scs : List String) (et kt : GoType) (rt : Option tagValue) snips
        (o : Oracle) (k' : String),
      IsAssignable kt = true →
      et.kind = .Pointer →
      hasDeepCopyMethod et = false →
      extractTag et.commentLines = .ok rt →
      generateFor bd (.mk .Map nm [] (some et) (some kt) none [] cs scs) = .ok snips →
      evalSnips o snips (.vmap (some [(k', .ptr none)])) (zeroOfKind .Map)
        = .ok (.vmap (some [(k', .ptr none)]), [])) ∧
    (∀ bd nm (cs scs : List String) (et kt : GoType) (rt : Option tagValue) snips
        (o : Oracle) (k' : String),
      IsAssignable kt = true →
      et.kind = .Slice → elemKindD et = .Builtin →
      hasDeepCopyMethod et = false →
      extractTag et.commentLines = .ok rt →
      generateFor bd (.mk .Map nm [] (some et) (some kt) none [] cs scs) = .ok snips →
      evalSnips o snips (.vmap (some [(k', .slice none)])) (zeroOfKind .Map)
        = .ok (.vmap (some [(k', .slice none)]), [])) ∧
    (∀ bd nm (cs scs : List String) (et : GoType) snips (o : Oracle),
      (et.kind = .Map ∨ et.kind = .Slice) →
      hasDeepCopyMethod et = false →
      generateFor bd (.mk .Pointer nm [] (some et) none none [] cs scs) = .ok snips →
      evalSnips o snips (.ptr (some (zeroOfKind et.kind))) (zeroOfKind .Pointer)
        = .ok (.ptr (some (zeroOfKind et.kind)), [])) := by
  refine ⟨?_, ?_, ?_, ?_, ?_, ?_, ?_, ?_⟩
  · intro intoSem
    rfl
  · intro bd nm cs scs f ft snips o v hk hm hgen hv
    rw [generateFor] at hgen
    rw [show (GoType.mk .Struct nm [(f, ft)] none none none [] cs scs).kind = .Struct
      from rfl] at hgen
    rw [doStruct] at hgen
    rw [show hasDeepCopyMethod (.mk .Struct nm [(f, ft)] none none none [] cs scs)
        = false from hasDeepCopyMethod_noMethods] at hgen
    simp only [Bool.false_eq_true, if_neg, ite_false] at hgen
    rw [show (GoType.mk .Struct nm [(f, ft)] none none none [] cs scs).members
      = [(f, ft)] from rfl] at hgen
    rw [doStructMembers] at hgen
    have hfix : doStructMember bd f ft
        = (generateFor bd ft).bind
            (fun inner => .ok [.memberFix f (.refRecurse inner)]) := by
      rcases hk with hk | hk | hk <;>
        · rw [doStructMember, doStructMemberSwitch.eq_def]
          cases ft with
          | mk k0 nm0 ms0 el0 ky0 un0 mth0 cs0 scs0 =>
            simp [GoType.kind] at hk
            subst hk
            simp [GoType.kind, hm, Bind.bind]
    rw [hfix] at hgen
    cases hgi : generateFor bd ft with
    | error e =>
        rw [hgi] at hgen
        simp [Bind.bind, Except.bind] at hgen
    | ok inner =>
        rw [hgi] at hgen
        simp [Bind.bind, Except.bind, doStructMembers] at hgen
        subst hgen
        simp [evalSnips, evalSnip, evalMemberFix, hv, List.lookup, setAssoc]
  · intro bd f ft hk hm
    rcases hk with hk | hk | hk <;>
      · rw [doStructMember, doStructMemberSwitch.eq_def]
        cases ft with
        | mk k0 nm0 ms0 el0 ky0 un0 mth0 cs0 scs0 =>
          simp [GoType.kind] at hk
          subst hk
          simp [GoType.kind, hm]
  · intro o n v ov hv
    simp [evalMemberFix, hv]
  · intro bd nm cs scs et snips o hk hm hgen
    rw [generateFor] at hgen
    rw [show (GoType.mk .Slice nm [] (some et) none none [] cs scs).kind = .Slice
      from rfl] at hgen
    rcases hk with hk | hk
    · rw [doSlice_sliceElem hk hm] at hgen
      cases hgi : generateFor bd et with
      | error e =>
          rw [hgi] at hgen
          simp [Except.bind] at hgen
      | ok inner =>
          rw [hgi] at hgen
          simp [Except.bind] at hgen
          subst hgen
          simp [evalSnips, evalSnip, evalSliceEntries, isNilValue, zeroOfKind, hk]
    · rw [doSlice_ptrElem hk hm] at hgen
      simp at hgen
      subst hgen
      simp [evalSnips, evalSnip, evalSliceEntries, isNilValue, zeroOfKind, hk]
  · intro bd nm cs scs et kt rt snips o k' hka hk hm hrt hgen
    rw [generateFor] at hgen
    rw [show (GoType.mk .Map nm [] (some et) (some kt) none [] cs scs).kind = .Map
      from rfl] at hgen
    rw [doMap_ptrVal hka hk hm hrt] at hgen
    simp at hgen
    subst hgen
    simp [evalSnips, evalSnip, evalMapEntries, evalMapEntry, zeroOfKind]
  · intro bd nm cs scs et kt rt snips o k' hka hk hek hm hrt hgen
    rw [generateFor] at hgen
    rw [show (GoType.mk .Map nm [] (some et) (some kt) none [] cs scs).kind = .Map
      from rfl] at hgen
    rw [doMap_sliceBuiltinVal hka hk hek hm hrt] at hgen
    simp at hgen
    subst hgen
    simp [evalSnips, evalSnip, evalMapEntries, evalMapEntry, zeroOfKind]
  · intro bd nm cs scs et snips o hk hm hgen
    rw [generateFor] at hgen
    rw [show (GoType.mk .Pointer nm [] (some et) none none [] cs scs).kind = .Pointer
      from rfl] at hgen
    rw [doPointer_refElem hk hm] at hgen
    cases hgi : generateFor bd et with
    | error e =>
        rw [hgi] at hgen
        simp [Except.bind] at hgen
    | ok inner =>
        rw [hgi] at hgen
        simp [Except.bind] at hgen
        subst hgen
        rcases hk with hk | hk <;>
          simp [evalSnips, evalSnip, evalPtrBody, isNilValue, zeroOfKind, hk]

/-- The pointer type `*p.T`. -/
def tPtrT : GoType := .mk .Pointer ⟨"", ""⟩ [] (some tT) none none [] [] []

/-- The anonymous slice type `[]string`. -/
def tSliceString : GoType := .mk .Slice ⟨"", ""⟩ [] (some tString) none none [] [] []

/-- A named reference type `p.Bytes` carrying its own matching `DeepCopy`
method. -/
def tRefWithMethod : GoType :=
  .mk .Slice ⟨"p", "Bytes"⟩ [] (some tString) none none
    [("DeepCopy", { receiverKind := .Slice, parameters := [], results := [⟨"p", "Bytes"⟩] })]
    [] []

/-- Witness for the amended claim C1: each nil-preservation conjunct applied
at a concrete type and a concrete nil source value. -/
theorem claim_C1_witness :
    evalDeepCopyAlloc (fun v => .ok (v, [])) none = .ok (none, []) ∧
    evalSnips demoOracle
        [.assignDeref,
         .memberFix "P" (.refRecurse [.ptrNilCheck (.newShallow ⟨"p", "T"⟩)])]
        (.struct [("P", .ptr none)]) (zeroOfKind .Struct)
      = .ok (.struct [("P", .ptr none)], []) ∧
    doStructMember [] "Q" tRefWithMethod
      = .ok [.memberFix "Q" (.refWithMethod ⟨"p", "Bytes"⟩)] ∧
    evalMemberFix demoOracle (.refWithMethod ⟨"p", "Bytes"⟩) (.slice none) (.slice none)
      = .ok (.slice none, []) ∧
    evalSnips demoOracle
        [.makeLen .Slice .Pointer ⟨"", ""⟩,
         .sliceLoop (.elemPtrNilCheckNewInto ⟨"p", "T"⟩)]
        (.slice (some [.ptr none])) (zeroOfKind .Slice)
      = .ok (.slice (some [.ptr none]), []) ∧
    evalSnips demoOracle
        [.makeLen .Map .Pointer ⟨"", ""⟩,
         .mapLoop (.valPtrNilCheckNewInto ⟨"p", "T"⟩)]
        (.vmap (some [("k", .ptr none)])) (zeroOfKind .Map)
      = .ok (.vmap (some [("k", .ptr none)]), []) ∧
    evalSnips demoOracle
        [.makeLen .Map .Slice ⟨"", ""⟩, .mapLoop (.valNilCheckMakeCopy ⟨"", ""⟩)]
        (.vmap (some [("k", .slice none)])) (zeroOfKind .Map)
      = .ok (.vmap (some [("k", .slice none)]), []) ∧
    evalSnips demoOracle
        [.ptrNilCheck (.newNilCheckRecurse .Slice ⟨"", ""⟩
          [.makeLen .Slice .Builtin ⟨"", ""⟩, .bulkCopy])]
        (.ptr (some (.slice none))) (zeroOfKind .Pointer)
      = .ok (.ptr (some (.slice none)), []) := by
  refine ⟨claim_C1_amended.1 (fun v => .ok (v, [])), ?_, ?_, ?_, ?_, ?_, ?_, ?_⟩
  · have hgen : generateFor [] (.mk .Struct ⟨"p", "S"⟩ [("P", tPtrT)] none none none [] [] [])
        = .ok [.assignDeref,
               .memberFix "P" (.refRecurse [.ptrNilCheck (.newShallow ⟨"p", "T"⟩)])] := by
      simp [generateFor, doStruct, doStructMembers, doStructMember, doStructMemberSwitch,
        doPointer, tPtrT, tT, tString, GoType.kind, GoType.members, GoType.methods,
        GoType.elem, GoType.underlying, GoType.name, hasDeepCopyMethod, IsAssignable,
        allMembersAssignable, List.lookup]
    exact claim_C1_amended.2.1 [] ⟨"p", "S"⟩ [] [] "P" tPtrT _ demoOracle (.ptr none)
      (Or.inr (Or.inr rfl)) rfl hgen rfl
  · have h := claim_C1_amended.2.2.1 [] "Q" tRefWithMethod
      (Or.inr (Or.inl rfl)) (by decide)
    simpa [tRefWithMethod, GoType.name] using h
  · exact claim_C1_amended.2.2.2.1 demoOracle ⟨"p", "Bytes"⟩ (.slice none) (.slice none) rfl
  · have hgen : generateFor [] (.mk .Slice ⟨"", ""⟩ [] (some tPtrT) none none [] [] [])
        = .ok [.makeLen .Slice .Pointer ⟨"", ""⟩,
               .sliceLoop (.elemPtrNilCheckNewInto ⟨"p", "T"⟩)] := by
      simp [generateFor, doSlice, tPtrT, tT, tString, GoType.kind, GoType.elem,
        GoType.methods, GoType.name, hasDeepCopyMethod, IsAssignable, elemKindD,
        elemNameD, List.lookup]
    have h := claim_C1_amended.2.2.2.2.1 [] ⟨"", ""⟩ [] [] tPtrT _ demoOracle
      (Or.inr rfl) rfl hgen
    simpa [tPtrT, GoType.kind, zeroOfKind] using h
  · have hgen : generateFor [] (.mk .Map ⟨"", ""⟩ [] (some tPtrT) (some tString) none [] [] [])
        = .ok [.makeLen .Map .Pointer ⟨"", ""⟩,
               .mapLoop (.valPtrNilCheckNewInto ⟨"p", "T"⟩)] := by
      simp [generateFor, doMap, tPtrT, tT, tString, GoType.kind, GoType.key, GoType.elem,
        GoType.methods, GoType.name, GoType.commentLines, hasDeepCopyMethod, IsAssignable,
        IsAnonymousStruct, copyableAndInBounds, copyableType, extractTag,
        extractCommentTagValues, tagValueIs, elemKindD, elemNameD, underlyingKindD,
        isRootedUnder, List.lookup]
    exact claim_C1_amended.2.2.2.2.2.1 [] ⟨"", ""⟩ [] [] tPtrT tString none _
      demoOracle "k" (by simp [IsAssignable, tString, GoType.kind]) rfl rfl rfl hgen
  · have hgen : generateFor []
        (.mk .Map ⟨"", ""⟩ [] (some tSliceString) (some tString) none [] [] [])
        = .ok [.makeLen .Map .Slice ⟨"", ""⟩, .mapLoop (.valNilCheckMakeCopy ⟨"", ""⟩)] := by
      simp [generateFor, doMap, tSliceString, tString, GoType.kind, GoType.key, GoType.elem,
        GoType.methods, GoType.name, GoType.commentLines, hasDeepCopyMethod, IsAssignable,
        IsAnonymousStruct, copyableAndInBounds, copyableType, extractTag,
        extractCommentTagValues, tagValueIs, elemKindD, elemNameD, underlyingKindD,
        isRootedUnder, List.lookup]
    exact claim_C1_amended.2.2.2.2.2.2.1 [] ⟨"", ""⟩ [] [] tSliceString tString none _
      demoOracle "k" (by simp [IsAssignable, tString, GoType.kind]) rfl rfl rfl rfl hgen
  · have hgen : generateFor []
        (.mk .Pointer ⟨"", ""⟩ [] (some tSliceString) none none [] [] [])
        = .ok [.ptrNilCheck (.newNilCheckRecurse .Slice ⟨"", ""⟩
            [.makeLen .Slice .Builtin ⟨"", ""⟩, .bulkCopy])] := by
      simp [generateFor, doPointer, doSlice, tSliceString, tString, GoType.kind,
        GoType.elem, GoType.methods, GoType.name, hasDeepCopyMethod, IsAssignable,
        elemKindD, List.lookup]
    have h := claim_C1_amended.2.2.2.2.2.2.2 [] ⟨"", ""⟩ [] [] tSliceString _ demoOracle
      (Or.inr rfl) rfl hgen
    simpa [tSliceString, GoType.kind, zeroOfKind] using h

end DeepcopyGen
